import Mathlib

/-!
A shallow embedding of the core error-translation pipeline of the
web3-error-helper library (TypeScript), together with theorems checking the
natural-language specification against it.

Conventions of the embedding:
* JavaScript runtime values that flow through the pipeline are modelled by
  the inductive type `JsVal`; JavaScript truthiness is `JsVal.truthy`.
* Machine strings are Lean `String`s.  `String.prototype.toLowerCase` is
  modelled by `jsToLower` on the ASCII and Latin-1 letter ranges (the only
  ranges occurring in the library data); `String.prototype.includes` is
  `jsIncludes`.
* The JavaScript regular-expression engine is an external capability of the
  runtime, modelled as a parameter `regexTest : String -> String -> Option Bool`
  where `none` models a `SyntaxError` on compilation of the pattern and
  `some b` the outcome of `regex.test`.
* Mutable module-level singletons (the custom chain registry, the i18n
  manager state, the translation cache) are modelled by explicit state
  passing through `LibState`.
* `throw` is modelled by `Except.error` carrying the message.
* The static JSON data tables (src/errors/*.json, src/translations/*.json)
  are not part of the source tree; following the spec, which treats them as
  opaque data, they are parameters (`CategoryTables`, the
  `englishTranslations` field of `I18nState`).
* Console logging and the diagnostic `context` metadata attached to results
  are observational monitoring data and are not modelled; the functional
  fields of a result (`message`, `translated`, `originalError`, `chain`,
  `retryable`, `fallbackUsed`) are.
-/

namespace Web3

/-- A JavaScript runtime value, as far as the pipeline inspects values. -/
inductive JsVal where
  | vnull
  | vundefined
  | vbool (b : Bool)
  | vnum (n : Int)
  | vstr (s : String)
  | varr (items : List JsVal)
  | vobj (fields : List (String × JsVal))

/-- JavaScript truthiness. -/
def JsVal.truthy : JsVal → Bool
  | .vnull => false
  | .vundefined => false
  | .vbool b => b
  | .vnum n => n != 0
  | .vstr s => !s.isEmpty
  | .varr _ => true
  | .vobj _ => true

/-- `typeof v === "object" && v !== null` (arrays are objects in JS). -/
def JsVal.isObj : JsVal → Bool
  | .vobj _ => true
  | .varr _ => true
  | _ => false

/-- `Array.isArray`. -/
def JsVal.isArr : JsVal → Bool
  | .varr _ => true
  | _ => false

/-- Array index read `v[i]`; out of range reads as `undefined`. -/
def JsVal.at (v : JsVal) (i : Nat) : JsVal :=
  match v with
  | .varr items => (items.get? i).getD .vundefined
  | _ => .vundefined

/-- JavaScript property read `v[k]`; missing properties read as `undefined`. -/
def JsVal.get (v : JsVal) (k : String) : JsVal :=
  match v with
  | .vobj fs => match fs.lookup k with
    | some x => x
    | none => .vundefined
  | _ => .vundefined

/-- `typeof v[k] === "string"` paired with the string itself. -/
def JsVal.getStr (v : JsVal) (k : String) : Option String :=
  match v.get k with
  | .vstr s => some s
  | _ => none

/-- The `k in v` test on objects (`BaseChainAdapter.hasErrorProperty`). -/
def JsVal.hasProp (v : JsVal) (k : String) : Bool :=
  match v with
  | .vobj fs => fs.any (fun p => p.1 == k)
  | _ => false

/-- `String.prototype.toLowerCase` for one character, covering the ASCII
range and the Latin-1 uppercase letters that occur in the library data. -/
def jsLowerChar (c : Char) : Char :=
  if 65 ≤ c.toNat && c.toNat ≤ 90 then Char.ofNat (c.toNat + 32)
  else if 192 ≤ c.toNat && c.toNat ≤ 222 && c.toNat != 215 then Char.ofNat (c.toNat + 32)
  else c

/-- `String.prototype.toLowerCase`. -/
def jsToLower (s : String) : String :=
  String.mk (s.data.map jsLowerChar)

/-- Char-list prefix test (kernel-computable). -/
def charsStartWith : List Char → List Char → Bool
  | _, [] => true
  | [], _ :: _ => false
  | c :: cs, d :: ds => c == d && charsStartWith cs ds

/-- Char-list substring test (kernel-computable). -/
def charsContain : List Char → List Char → Bool
  | [], sub => sub.isEmpty
  | c :: cs, sub => charsStartWith (c :: cs) sub || charsContain cs sub

/-- `String.prototype.includes`: `s` contains `sub` as a substring. -/
def jsIncludes (s sub : String) : Bool :=
  charsContain s.data sub.data

/-- A whitespace character in the sense of `String.prototype.trim`. -/
def isJsSpace (c : Char) : Bool :=
  c == ' ' || c == '\t' || c == '\n' || c == '\r'

/-- `String.prototype.trim` (kernel-computable). -/
def jsTrim (s : String) : String :=
  String.mk (((s.data.dropWhile isJsSpace).reverse.dropWhile isJsSpace).reverse)

/-- The accumulator loop of the dot split. -/
def splitOnDotAux : List Char → List Char → List String
  | [], acc => [String.mk acc.reverse]
  | c :: cs, acc =>
    if c == '.' then String.mk acc.reverse :: splitOnDotAux cs []
    else splitOnDotAux cs (c :: acc)

/-- `path.split(".")` as used by `getNestedValue` (kernel-computable). -/
def splitOnDot (s : String) : List String :=
  splitOnDotAux s.data []

theorem isEmpty_false_iff (s : String) : s.isEmpty = false ↔ s ≠ "" := by
  rw [Bool.eq_false_iff]
  exact not_congr (String.isEmpty_iff s)

/-- The sentinel of `BaseChainAdapter.extractMessageFromError`. -/
def unknownErrorSentinel : String := "Unknown error occurred"

/-- `BaseChainAdapter.extractMessageFromError`: the shared defensive
baseline extraction (message, error-as-string, reason, details, sentinel). -/
def extractMessageFromError (error : JsVal) : String :=
  match error with
  | .vstr s => s
  | _ =>
    if error.truthy && error.isObj then
      match error.getStr "message" with
      | some m => m
      | none =>
        match error.getStr "error" with
        | some e => e
        | none =>
          match error.getStr "reason" with
          | some r => r
          | none =>
            match error.getStr "details" with
            | some d => d
            | none => unknownErrorSentinel
    else unknownErrorSentinel

/-- The blockchain ecosystems having an adapter. -/
inductive Ecosystem where
  | evm | solana | cosmos | near | cardano | polkadot | algorand | tezos | stellar | ripple
deriving DecidableEq

/-- `EVMAdapter.extractErrorMessage`. -/
def evmExtract (error : JsVal) : String :=
  match error with
  | .vstr s => s
  | _ =>
    if error.truthy && error.isObj then
      match error.getStr "message" with
      | some m => m
      | none =>
        match error.getStr "reason" with
        | some r => r
        | none =>
          match error.getStr "data" with
          | some d => d
          | none =>
            if (error.get "code").truthy && (error.getStr "message").isSome then
              (error.getStr "message").getD ""
            else if (error.get "error").truthy && (error.get "error").isObj then
              match (error.get "error").getStr "message" with
              | some m => m
              | none => extractMessageFromError error
            else extractMessageFromError error
    else extractMessageFromError error

/-- `EVMAdapter.matchesErrorFormat`. -/
def evmMatches (error : JsVal) : Bool :=
  match error with
  | .vstr s =>
    jsIncludes s "execution reverted" || jsIncludes s "gas required exceeds allowance" ||
    jsIncludes s "nonce too low" || jsIncludes s "revert" ||
    jsIncludes s "out of gas" || jsIncludes s "gas limit"
  | _ =>
    if error.truthy && error.isObj then
      error.hasProp "code" || error.hasProp "data" ||
      error.hasProp "transaction" || error.hasProp "receipt"
    else false

/-- The Solana `InstructionError` tuple branch (a numeric custom code is
formatted as a program error) followed by the shared baseline. -/
def solanaInstructionPart (error : JsVal) : String :=
  let ie := error.get "InstructionError"
  let custom : Option Int :=
    if ie.truthy && ie.isArr then
      let instructionError := ie.at 1
      if instructionError.isObj then
        match instructionError.get "Custom" with
        | .vnum n => some n
        | _ => none
      else none
    else none
  match custom with
  | some n => "Program error: " ++ toString n
  | none => extractMessageFromError error

/-- `SolanaAdapter.extractErrorMessage`. -/
def solanaExtract (error : JsVal) : String :=
  match error with
  | .vstr s => s
  | _ =>
    if error.truthy && error.isObj then
      let dataErrMsg : Option String :=
        if (error.get "data").truthy && (error.get "data").isObj then
          let dataErr := (error.get "data").get "err"
          if dataErr.isObj then dataErr.getStr "message" else none
        else none
      match dataErrMsg with
      | some m => m
      | none =>
        match error.getStr "message" with
        | some m => m
        | none =>
          if (error.get "error").truthy && (error.get "error").isObj then
            match (error.get "error").getStr "message" with
            | some m => m
            | none => solanaInstructionPart error
          else solanaInstructionPart error
    else extractMessageFromError error

/-- `SolanaAdapter.matchesErrorFormat`. -/
def solanaMatches (error : JsVal) : Bool :=
  match error with
  | .vstr s =>
    jsIncludes s "insufficient funds" || jsIncludes s "account not found" ||
    jsIncludes s "program error" || jsIncludes s "instruction error" ||
    jsIncludes s "blockhash not found" || jsIncludes s "signature verification failed"
  | _ =>
    if error.truthy && error.isObj then
      error.hasProp "InstructionError" || error.hasProp "ProgramError" ||
      error.hasProp "slot" || error.hasProp "blockhash" || error.hasProp "signature"
    else false

/-- `CosmosAdapter.extractErrorMessage`. -/
def cosmosExtract (error : JsVal) : String :=
  match error with
  | .vstr s => s
  | _ =>
    if error.truthy && error.isObj then
      if (error.get "code").truthy && (error.getStr "message").isSome then
        (error.getStr "message").getD ""
      else if (error.get "tx_response").truthy && (error.get "tx_response").isObj
          && ((error.get "tx_response").getStr "raw_log").isSome then
        ((error.get "tx_response").getStr "raw_log").getD ""
      else if (error.get "error").truthy && (error.get "error").isObj
          && ((error.get "error").getStr "message").isSome then
        ((error.get "error").getStr "message").getD ""
      else if (error.get "type").truthy && (error.getStr "message").isSome then
        (error.getStr "message").getD ""
      else extractMessageFromError error
    else extractMessageFromError error

/-- `CosmosAdapter.matchesErrorFormat`. -/
def cosmosMatches (error : JsVal) : Bool :=
  match error with
  | .vstr s =>
    jsIncludes s "insufficient funds" || jsIncludes s "account sequence mismatch" ||
    jsIncludes s "signature verification failed" || jsIncludes s "invalid sequence" ||
    jsIncludes s "out of gas" || jsIncludes s "ABCI" || jsIncludes s "cosmos"
  | _ =>
    if error.truthy && error.isObj then
      error.hasProp "code" || error.hasProp "tx_response" || error.hasProp "raw_log" ||
      error.hasProp "type" || error.hasProp "module"
    else false

/-- `NearAdapter.extractErrorMessage` (the deep `Failure.ActionError` walk). -/
def nearFailurePart (error : JsVal) : String :=
  let failure := error.get "Failure"
  let deep : Option String :=
    if failure.truthy && failure.isObj then
      let actionError := failure.get "ActionError"
      if actionError.isObj then
        let kind := actionError.get "kind"
        if kind.isObj then
          let fce := kind.get "FunctionCallError"
          if fce.isObj then fce.getStr "ExecutionError" else none
        else none
      else none
    else none
  match deep with
  | some m => m
  | none =>
    if (error.get "AccountDoesNotExist").truthy then
      "Account does not exist on Near Protocol"
    else if (error.get "AccessKeyDoesNotExist").truthy then
      "Access key does not exist for this account"
    else extractMessageFromError error

/-- `NearAdapter.extractErrorMessage`. -/
def nearExtract (error : JsVal) : String :=
  match error with
  | .vstr s => s
  | _ =>
    if error.truthy && error.isObj then
      if (error.get "message").truthy && (error.getStr "message").isSome then
        (error.getStr "message").getD ""
      else if (error.get "error").truthy && (error.get "error").isObj
          && ((error.get "error").getStr "message").isSome then
        ((error.get "error").getStr "message").getD ""
      else nearFailurePart error
    else extractMessageFromError error

/-- `NearAdapter.matchesErrorFormat`. -/
def nearMatches (error : JsVal) : Bool :=
  match error with
  | .vstr s =>
    jsIncludes s "insufficient balance" || jsIncludes s "account does not exist" ||
    jsIncludes s "access key" || jsIncludes s "function call" ||
    jsIncludes s "execution error" || jsIncludes s "near" || jsIncludes s "NEAR"
  | _ =>
    if error.truthy && error.isObj then
      error.hasProp "Failure" || error.hasProp "AccountDoesNotExist" ||
      error.hasProp "AccessKeyDoesNotExist" || error.hasProp "FunctionCallError" ||
      error.hasProp "ExecutionError"
    else false

/-- `CardanoAdapter.extractErrorMessage`. -/
def cardanoExtract (error : JsVal) : String :=
  match error with
  | .vstr s => s
  | _ =>
    if error.truthy && error.isObj then
      match error.getStr "message" with
      | some m => m
      | none =>
        if (error.get "error").truthy && (error.get "error").isObj
            && ((error.get "error").getStr "message").isSome then
          ((error.get "error").getStr "message").getD ""
        else
          let sf := error.get "ScriptFailure"
          let plutus : Option String :=
            if sf.truthy && sf.isObj then
              let pf := sf.get "PlutusFailure"
              if pf.isObj then pf.getStr "EvaluationError" else none
            else none
          match plutus with
          | some m => m
          | none =>
            if (error.get "ValidationError").truthy
                && (error.getStr "ValidationError").isSome then
              (error.getStr "ValidationError").getD ""
            else extractMessageFromError error
    else extractMessageFromError error

/-- `CardanoAdapter.matchesErrorFormat`. -/
def cardanoMatches (error : JsVal) : Bool :=
  match error with
  | .vstr s =>
    jsIncludes s "insufficient ada" || jsIncludes s "script execution failed" ||
    jsIncludes s "datum hash mismatch" || jsIncludes s "plutus" ||
    jsIncludes s "cardano" || jsIncludes s "utxo"
  | _ =>
    if error.truthy && error.isObj then
      error.hasProp "ScriptFailure" || error.hasProp "ValidationError" ||
      error.hasProp "PlutusFailure" || error.hasProp "EvaluationError" ||
      error.hasProp "utxo"
    else false

/-- `PolkadotAdapter.extractErrorMessage` (the `ExtrinsicFailed` walk). -/
def polkadotExtrinsicPart (error : JsVal) : String :=
  let ef := error.get "ExtrinsicFailed"
  let deep : Option String :=
    if ef.truthy && ef.isObj then
      let de := ef.get "DispatchError"
      if de.isObj then
        match de.getStr "BadOrigin" with
        | some b => some ("Bad origin: " ++ b)
        | none =>
          let m := de.get "Module"
          if m.isObj then
            match m.getStr "error" with
            | some e => some ("Module error: " ++ e)
            | none => none
          else none
      else none
    else none
  match deep with
  | some m => m
  | none =>
    if (error.get "BalanceTooLow").truthy then "Insufficient balance for transaction"
    else if (error.get "ExistenceRequired").truthy then "Account existence required"
    else extractMessageFromError error

/-- `PolkadotAdapter.extractErrorMessage`. -/
def polkadotExtract (error : JsVal) : String :=
  match error with
  | .vstr s => s
  | _ =>
    if error.truthy && error.isObj then
      match error.getStr "message" with
      | some m => m
      | none =>
        if (error.get "error").truthy && (error.get "error").isObj
            && ((error.get "error").getStr "message").isSome then
          ((error.get "error").getStr "message").getD ""
        else polkadotExtrinsicPart error
    else extractMessageFromError error

/-- `PolkadotAdapter.matchesErrorFormat`. -/
def polkadotMatches (error : JsVal) : Bool :=
  match error with
  | .vstr s =>
    jsIncludes s "insufficient balance" || jsIncludes s "extrinsic failed" ||
    jsIncludes s "bad origin" || jsIncludes s "substrate" ||
    jsIncludes s "polkadot" || jsIncludes s "parachain"
  | _ =>
    if error.truthy && error.isObj then
      error.hasProp "ExtrinsicFailed" || error.hasProp "DispatchError" ||
      error.hasProp "BalanceTooLow" || error.hasProp "ExistenceRequired" ||
      error.hasProp "Module"
    else false

/-- `AlgorandAdapter.extractErrorMessage`. -/
def algorandExtract (error : JsVal) : String :=
  match error with
  | .vstr s => s
  | _ =>
    if error.truthy && error.isObj then
      match error.getStr "message" with
      | some m => m
      | none =>
        if (error.get "error").truthy && (error.get "error").isObj
            && ((error.get "error").getStr "message").isSome then
          ((error.get "error").getStr "message").getD ""
        else if (error.get "logic_error").truthy && (error.get "logic_error").isObj
            && ((error.get "logic_error").getStr "message").isSome then
          ((error.get "logic_error").getStr "message").getD ""
        else if (error.get "validation_error").truthy
            && (error.getStr "validation_error").isSome then
          (error.getStr "validation_error").getD ""
        else if (error.get "network_error").truthy
            && (error.getStr "network_error").isSome then
          (error.getStr "network_error").getD ""
        else extractMessageFromError error
    else extractMessageFromError error

/-- `AlgorandAdapter.matchesErrorFormat`. -/
def algorandMatches (error : JsVal) : Bool :=
  match error with
  | .vstr s =>
    jsIncludes s "insufficient balance" || jsIncludes s "logic error" ||
    jsIncludes s "invalid signature" || jsIncludes s "algorand" ||
    jsIncludes s "teal" || jsIncludes s "asa"
  | _ =>
    if error.truthy && error.isObj then
      error.hasProp "logic_error" || error.hasProp "validation_error" ||
      error.hasProp "network_error" || error.hasProp "asa" || error.hasProp "teal"
    else false

/-- `TezosAdapter.extractErrorMessage`. -/
def tezosExtract (error : JsVal) : String :=
  match error with
  | .vstr s => s
  | _ =>
    if error.truthy && error.isObj then
      match error.getStr "message" with
      | some m => m
      | none =>
        if (error.get "error").truthy && (error.get "error").isObj
            && ((error.get "error").getStr "message").isSome then
          ((error.get "error").getStr "message").getD ""
        else if (error.get "michelson_error").truthy && (error.get "michelson_error").isObj
            && ((error.get "michelson_error").getStr "message").isSome then
          ((error.get "michelson_error").getStr "message").getD ""
        else if (error.get "validation_error").truthy
            && (error.getStr "validation_error").isSome then
          (error.getStr "validation_error").getD ""
        else if (error.get "network_error").truthy
            && (error.getStr "network_error").isSome then
          (error.getStr "network_error").getD ""
        else extractMessageFromError error
    else extractMessageFromError error

/-- `TezosAdapter.matchesErrorFormat`. -/
def tezosMatches (error : JsVal) : Bool :=
  match error with
  | .vstr s =>
    jsIncludes s "insufficient balance" || jsIncludes s "script failed" ||
    jsIncludes s "invalid operation" || jsIncludes s "tezos" ||
    jsIncludes s "michelson" || jsIncludes s "xtz"
  | _ =>
    if error.truthy && error.isObj then
      error.hasProp "michelson_error" || error.hasProp "validation_error" ||
      error.hasProp "network_error" || error.hasProp "operation" || error.hasProp "xtz"
    else false

/-- `StellarAdapter.extractErrorMessage`. -/
def stellarExtract (error : JsVal) : String :=
  match error with
  | .vstr s => s
  | _ =>
    if error.truthy && error.isObj then
      match error.getStr "message" with
      | some m => m
      | none =>
        if (error.get "error").truthy && (error.get "error").isObj
            && ((error.get "error").getStr "message").isSome then
          ((error.get "error").getStr "message").getD ""
        else if (error.get "operation_error").truthy && (error.get "operation_error").isObj
            && ((error.get "operation_error").getStr "code").isSome then
          "Operation error: " ++ ((error.get "operation_error").getStr "code").getD ""
        else if (error.get "result").truthy && (error.get "result").isObj
            && ((error.get "result").getStr "result").isSome then
          ((error.get "result").getStr "result").getD ""
        else if (error.get "horizon_error").truthy
            && (error.getStr "horizon_error").isSome then
          (error.getStr "horizon_error").getD ""
        else extractMessageFromError error
    else extractMessageFromError error

/-- `StellarAdapter.matchesErrorFormat`. -/
def stellarMatches (error : JsVal) : Bool :=
  match error with
  | .vstr s =>
    jsIncludes s "insufficient balance" || jsIncludes s "operation failed" ||
    jsIncludes s "stellar" || jsIncludes s "horizon" ||
    jsIncludes s "xlm" || jsIncludes s "trustline"
  | _ =>
    if error.truthy && error.isObj then
      error.hasProp "operation_error" || error.hasProp "horizon_error" ||
      error.hasProp "stellar" || error.hasProp "xlm" || error.hasProp "trustline"
    else false

/-- `RippleAdapter.extractErrorMessage`. -/
def rippleExtract (error : JsVal) : String :=
  match error with
  | .vstr s => s
  | _ =>
    if error.truthy && error.isObj then
      match error.getStr "message" with
      | some m => m
      | none =>
        if (error.get "error").truthy && (error.get "error").isObj
            && ((error.get "error").getStr "message").isSome then
          ((error.get "error").getStr "message").getD ""
        else if (error.get "result").truthy && (error.get "result").isObj
            && (((error.get "result").getStr "error").isSome
                || ((error.get "result").getStr "error_message").isSome) then
          match (error.get "result").getStr "error" with
          | some e => e
          | none => ((error.get "result").getStr "error_message").getD ""
        else if (error.get "transaction_result").truthy && (error.get "transaction_result").isObj
            && ((error.get "transaction_result").getStr "result").isSome then
          "Transaction result: " ++ ((error.get "transaction_result").getStr "result").getD ""
        else if (error.get "ledger_error").truthy
            && (error.getStr "ledger_error").isSome then
          (error.getStr "ledger_error").getD ""
        else extractMessageFromError error
    else extractMessageFromError error

/-- `RippleAdapter.matchesErrorFormat`. -/
def rippleMatches (error : JsVal) : Bool :=
  match error with
  | .vstr s =>
    jsIncludes s "insufficient funds" || jsIncludes s "ripple" ||
    jsIncludes s "xrp" || jsIncludes s "ledger" ||
    jsIncludes s "payment" || jsIncludes s "trustline"
  | _ =>
    if error.truthy && error.isObj then
      error.hasProp "transaction_result" || error.hasProp "ledger_error" ||
      error.hasProp "ripple" || error.hasProp "xrp" || error.hasProp "payment"
    else false

/-- Dispatch of `matchesErrorFormat` over the adapters. -/
def adapterMatches : Ecosystem → JsVal → Bool
  | .evm => evmMatches
  | .solana => solanaMatches
  | .cosmos => cosmosMatches
  | .near => nearMatches
  | .cardano => cardanoMatches
  | .polkadot => polkadotMatches
  | .algorand => algorandMatches
  | .tezos => tezosMatches
  | .stellar => stellarMatches
  | .ripple => rippleMatches

/-- Dispatch of `extractErrorMessage` over the adapters. -/
def adapterExtract : Ecosystem → JsVal → String
  | .evm => evmExtract
  | .solana => solanaExtract
  | .cosmos => cosmosExtract
  | .near => nearExtract
  | .cardano => cardanoExtract
  | .polkadot => polkadotExtract
  | .algorand => algorandExtract
  | .tezos => tezosExtract
  | .stellar => stellarExtract
  | .ripple => rippleExtract

/-- The non-EVM adapters in the insertion order of
`AdapterRegistry.initializeDefaultAdapters`. -/
def defaultAdapterOrder : List Ecosystem :=
  [.solana, .cosmos, .near, .cardano, .polkadot, .algorand, .tezos, .stellar, .ripple]

/-- `AdapterRegistry.detectAdapter`: probe the registered adapters in
insertion order, then the EVM adapter, else `null`. -/
def detectAdapter (error : JsVal) : Option Ecosystem :=
  match defaultAdapterOrder.find? (fun a => adapterMatches a error) with
  | some a => some a
  | none => if evmMatches error then some .evm else none

/-- `AdapterRegistry.getAdapter`: the ecosystem-name lookup (the map holds
only the non-EVM adapters). -/
def getAdapter : String → Option Ecosystem
  | "solana" => some .solana
  | "cosmos" => some .cosmos
  | "near" => some .near
  | "cardano" => some .cardano
  | "polkadot" => some .polkadot
  | "algorand" => some .algorand
  | "tezos" => some .tezos
  | "stellar" => some .stellar
  | "ripple" => some .ripple
  | _ => none

/-- `extractErrorMessage` of the error-translation service: pick the adapter
(explicit ecosystem hint, else detection, EVM as last resort) and extract. -/
def extractErrorMessage (error : JsVal) (ecosystem : Option String) : String :=
  let adapter :=
    match ecosystem with
    | some eco =>
      if eco != "" then (getAdapter eco).getD .evm
      else (detectAdapter error).getD .evm
    | none => (detectAdapter error).getD .evm
  adapterExtract adapter error

/-- `ErrorMapping` of src/types.ts: a pattern-to-message rule.  `isRegex`
and `priority` are optional fields. -/
structure ErrorMapping where
  pattern : String
  message : String
  isRegex : Option Bool := none
  priority : Option Int := none
deriving DecidableEq

/-- The sort key `mapping.priority ?? 0` (nullish coalescing). -/
def ErrorMapping.prio (m : ErrorMapping) : Int :=
  m.priority.getD 0

/-- `matchesPattern` of the error-translation service.  `regexTest` is the
JS regular-expression engine; `none` models a `SyntaxError` thrown by
`new RegExp(pattern, "i")`, which the catch block degrades to the
case-insensitive exact comparison of the non-regex path. -/
def matchesPattern (regexTest : String → String → Option Bool)
    (errorMessage : String) (m : ErrorMapping) : Bool :=
  let message := jsToLower errorMessage
  let patternLower := jsToLower m.pattern
  if m.isRegex.getD false then
    match regexTest m.pattern errorMessage with
    | some b => b
    | none => message == patternLower
  else message == patternLower

/-- `findBestMatch`: the first mapping in the given order whose pattern
matches, else `null`. -/
def findBestMatch (regexTest : String → String → Option Bool)
    (errorMessage : String) (mappings : List ErrorMapping) : Option ErrorMapping :=
  mappings.find? (matchesPattern regexTest errorMessage)

/-- Insertion step of the stable descending sort by an integer key: the new
element goes in front of the first element whose key is less or equal, so
elements that were earlier in the original list stay in front on ties. -/
def insertDescBy {α : Type} (key : α → Int) (m : α) : List α → List α
  | [] => [m]
  | x :: xs => if key x ≤ key m then m :: x :: xs else x :: insertDescBy key m xs

/-- The stable sort by an integer key, descending.  `Array.prototype.sort`
with the comparator `(a, b) => (b.priority ?? 0) - (a.priority ?? 0)` is a
stable sort (ECMAScript 2019), and a stable sort is unique as a function,
so this insertion sort computes exactly the JS result. -/
def sortDescBy {α : Type} (key : α → Int) : List α → List α
  | [] => []
  | x :: xs => insertDescBy key x (sortDescBy key xs)

/-- `ERROR_TYPE_KEYWORDS` of src/types.ts with its entries in object
insertion order (the order `Object.entries` iterates in
`detectErrorType`). -/
inductive ErrorType where
  | WALLET | CONTRACT | GAS | TRANSACTION | NETWORK
deriving DecidableEq

/-- `errorType.toLowerCase()` as used to build i18n keys. -/
def ErrorType.key : ErrorType → String
  | .WALLET => "wallet"
  | .CONTRACT => "contract"
  | .GAS => "gas"
  | .TRANSACTION => "transaction"
  | .NETWORK => "network"

/-- The keyword table `ERROR_TYPE_KEYWORDS`. -/
def ERROR_TYPE_KEYWORDS : List (ErrorType × List String) :=
  [(.WALLET, ["wallet", "user rejected", "user denied", "wallet connection",
              "billetera", "carteira", "portefeuille"]),
   (.CONTRACT, ["contract", "execution reverted", "revert", "contrato", "contrat"]),
   (.GAS, ["gas", "insufficient gas", "out of gas", "gás", "gaz"]),
   (.TRANSACTION, ["transaction", "tx", "nonce", "transacción", "transação",
                   "transaction"]),
   (.NETWORK, ["network", "timeout", "connection", "red", "rede", "réseau",
               "conexión", "conexão", "connexion"])]

/-- `detectErrorType` of src/utils/error-type-detection.ts: the first entry
whose keyword set has a member contained in the lower-cased message. -/
def detectErrorType (errorMessage : String) : Option ErrorType :=
  let message := jsToLower errorMessage
  (ERROR_TYPE_KEYWORDS.find? (fun p => p.2.any (fun k => jsIncludes message k))).map (fun p => p.1)

/-- `customFallbacks` of a `CustomChainConfig`. -/
structure CustomFallbacks where
  generic : Option String := none
  network : Option String := none
  wallet : Option String := none
  contract : Option String := none
deriving DecidableEq

/-- `CustomChainConfig` of src/types.ts (the metadata record, irrelevant to
the pipeline, is omitted). -/
structure CustomChainConfig where
  chainId : String
  name : String
  errorMappings : List ErrorMapping
  customFallbacks : Option CustomFallbacks := none
deriving DecidableEq

/-- The in-memory `CustomChainRegistry` map, in insertion order. -/
abbrev ChainRegistry := List (String × CustomChainConfig)

/-- `CustomChainRegistry.has`. -/
def regHas (r : ChainRegistry) (chainId : String) : Bool :=
  r.any (fun p => p.1 == chainId)

/-- `CustomChainRegistry.get`. -/
def regGet (r : ChainRegistry) (chainId : String) : Option CustomChainConfig :=
  (r.find? (fun p => p.1 == chainId)).map (fun p => p.2)

/-- `CustomChainRegistry.getErrorMappings`: `config?.errorMappings || []`. -/
def regGetErrorMappings (r : ChainRegistry) (chainId : String) : List ErrorMapping :=
  match regGet r chainId with
  | some c => c.errorMappings
  | none => []

/-- `CustomChainRegistry.getCustomFallbacks`: `config?.customFallbacks`. -/
def regGetCustomFallbacks (r : ChainRegistry) (chainId : String) : Option CustomFallbacks :=
  (regGet r chainId).bind (fun c => c.customFallbacks)

/-- The structured counterpart of the `Error` messages thrown by
`CustomChainRegistry`.  The corresponding JS message texts are:
`duplicate id`: Chain <id> is already registered;
`invalidChainId`: chainId must be a non-empty string;
`invalidName`: name must be a non-empty string;
`invalidMappingPattern i`: errorMappings[i].pattern must be a non-empty string;
`invalidMappingMessage i`: errorMappings[i].message must be a non-empty string. -/
inductive RegError where
  | duplicate (chainId : String)
  | invalidChainId
  | invalidName
  | invalidMappingPattern (i : Nat)
  | invalidMappingMessage (i : Nat)
deriving DecidableEq

/-- The per-mapping loop of `CustomChainRegistry.validateConfig`: the first
mapping with an empty pattern or message yields the validation error. -/
def firstMappingError : List ErrorMapping → Nat → Option RegError
  | [], _ => none
  | m :: rest, i =>
    if m.pattern == "" then some (.invalidMappingPattern i)
    else if m.message == "" then some (.invalidMappingMessage i)
    else firstMappingError rest (i + 1)

/-- `CustomChainRegistry.validateConfig`.  The dynamic type checks
(`typeof !== "string"`, `Array.isArray`) cannot fail for a well-typed
config, so in this typed embedding invalidity reduces to the emptiness
checks. -/
def validateConfig (c : CustomChainConfig) : Option RegError :=
  if c.chainId == "" then some .invalidChainId
  else if c.name == "" then some .invalidName
  else firstMappingError c.errorMappings 0

/-- `CustomChainRegistry.register` with explicit state: the duplicate check,
then full validation, and only then the `Map.set` (so a throw commits
nothing).  Returns the thrown error (state unchanged) or the new state. -/
def register (r : ChainRegistry) (c : CustomChainConfig) : Option RegError × ChainRegistry :=
  if regHas r c.chainId then (some (.duplicate c.chainId), r)
  else
    match validateConfig c with
    | some e => (some e, r)
    | none => (none, r ++ [(c.chainId, c)])

/-- `CustomChainRegistry.unregister`. -/
def unregister (r : ChainRegistry) (chainId : String) : Bool × ChainRegistry :=
  (regHas r chainId, r.filter (fun p => !(p.1 == chainId)))

/-- The `SupportedChain` enum values. -/
def supportedChains : List String :=
  ["ethereum", "polygon", "arbitrum", "optimism", "bsc", "avalanche", "fantom", "base"]

/-- The per-category mapping tables imported from src/errors/*.json,
treated by the spec as opaque data and therefore a parameter here. -/
structure CategoryTables where
  erc20 : List ErrorMapping
  gas : List ErrorMapping
  wallet : List ErrorMapping
  network : List ErrorMapping
  transaction : List ErrorMapping
  evm : List ErrorMapping
  contract : List ErrorMapping

/-- `ERROR_CATEGORY_MAPPINGS` in its object insertion order (the order
`Object.values` iterates). -/
def ERROR_CATEGORY_MAPPINGS (t : CategoryTables) : List (String × List ErrorMapping) :=
  [("erc20", t.erc20), ("gas", t.gas), ("wallet", t.wallet), ("network", t.network),
   ("transaction", t.transaction), ("evm", t.evm), ("contract", t.contract)]

/-- One `errorCategories` entry of the static `CHAIN_REGISTRY` data. -/
structure ChainErrorConfig where
  category : String
  priority : Int
  enabled : Bool
deriving DecidableEq

/-- `CHAIN_REGISTRY[chain].errorCategories`: every built-in chain declares
the same seven categories with priorities 10 down to 4, all enabled
(src/data/chain-registry.ts). -/
def chainErrorCategories (chain : String) : List ChainErrorConfig :=
  if supportedChains.contains chain then
    [⟨"erc20", 10, true⟩, ⟨"gas", 9, true⟩, ⟨"wallet", 8, true⟩, ⟨"network", 7, true⟩,
     ⟨"transaction", 6, true⟩, ⟨"evm", 5, true⟩, ⟨"contract", 4, true⟩]
  else []

/-- `getEnabledErrorCategories`: filter enabled, sort by priority
descending. -/
def getEnabledErrorCategories (chain : String) : List ChainErrorConfig :=
  sortDescBy (fun c => c.priority) ((chainErrorCategories chain).filter (fun c => c.enabled))

/-- The concatenation of every category table in `Object.values` order (the
fallback branch of `loadErrorMappings` for unrecognized chains). -/
def allCategoriesConcat (t : CategoryTables) : List ErrorMapping :=
  (ERROR_CATEGORY_MAPPINGS t).foldl (fun acc p => acc ++ p.2) []

/-- `loadErrorMappings` of src/mapping-loader.ts: custom-chain mappings
first, then the enabled categories of a built-in chain (or every category
for an unrecognized chain), finally the stable sort by priority
descending with missing priority as 0. -/
def loadErrorMappings (t : CategoryTables) (r : ChainRegistry) (chain : String) : List ErrorMapping :=
  let customPart := if regHas r chain then regGetErrorMappings r chain else []
  let builtinPart :=
    if supportedChains.contains chain then
      (getEnabledErrorCategories chain).foldl
        (fun acc cfg =>
          match (ERROR_CATEGORY_MAPPINGS t).lookup cfg.category with
          | some ms => acc ++ ms
          | none => acc)
        []
    else allCategoriesConcat t
  sortDescBy ErrorMapping.prio (customPart ++ builtinPart)

/-- `addCustomMappings` of src/mapping-utils.ts: per-call custom mappings
become entries of fixed priority 100 and are prepended. -/
def addCustomMappings (existingMappings : List ErrorMapping)
    (customMappings : List (String × String)) : List ErrorMapping :=
  (customMappings.map (fun p =>
    { pattern := p.1, message := p.2, priority := some 100 : ErrorMapping }))
    ++ existingMappings

/-- A `TranslationValue`: a string or a nested translation object. -/
inductive TransVal where
  | str (s : String)
  | obj (fields : List (String × TransVal))

/-- A `TranslationObject`. -/
abbrev TranslationObject := List (String × TransVal)

/-- One step of the reduce in `I18nManager.getNestedValue`: descend into an
object under the key, anything else becomes `undefined`. -/
def getNestedStep (current : Option TransVal) (key : String) : Option TransVal :=
  match current with
  | some (TransVal.obj fs) => fs.lookup key
  | _ => none

/-- `I18nManager.getNestedValue`: dot-path traversal; a non-string result is
`null`. -/
def getNestedValue (obj : TranslationObject) (path : String) : Option String :=
  match (splitOnDot path).foldl getNestedStep (some (TransVal.obj obj)) with
  | some (TransVal.str s) => some s
  | _ => none

/-- A character of the `\w` class of the interpolation pattern. -/
def isWordChar (c : Char) : Bool :=
  (97 ≤ c.toNat && c.toNat ≤ 122) || (65 ≤ c.toNat && c.toNat ≤ 90) ||
  (48 ≤ c.toNat && c.toNat ≤ 57) || c == '_'

/-- Parse one occurrence of the interpolation pattern at the position right
after an opening double brace: a non-empty word followed by the closing
double brace; returns the word and the remainder. -/
def parseInterp (cs : List Char) : Option (String × List Char) :=
  let word := cs.takeWhile isWordChar
  if word.isEmpty then none
  else
    match cs.drop word.length with
    | c1 :: c2 :: tail =>
      if c1 == '}' && c2 == '}' then some (String.mk word, tail) else none
    | _ => none

theorem parseInterp_length_lt {cs : List Char} {k : String} {tail : List Char}
    (h : parseInterp cs = some (k, tail)) : tail.length < cs.length := by
  unfold parseInterp at h
  by_cases hw : (cs.takeWhile isWordChar).isEmpty
  · simp [hw] at h
  · rw [if_neg hw] at h
    rcases hd : cs.drop (cs.takeWhile isWordChar).length with _ | ⟨c1, _ | ⟨c2, tl⟩⟩
    · rw [hd] at h
      simp at h
    · rw [hd] at h
      simp at h
    · rw [hd] at h
      by_cases hbr : (c1 == '}' && c2 == '}') = true
      · rw [show (match c1 :: c2 :: tl with
            | c1 :: c2 :: tail =>
              if c1 == '}' && c2 == '}' then
                some (String.mk (cs.takeWhile isWordChar), tail)
              else none
            | _ => none) =
            (if c1 == '}' && c2 == '}' then
              some (String.mk (cs.takeWhile isWordChar), tl) else none) from rfl,
          if_pos hbr] at h
        simp only [Option.some.injEq, Prod.mk.injEq] at h
        obtain ⟨-, htail⟩ := h
        subst htail
        have hlen := congrArg List.length hd
        simp only [List.length_drop, List.length_cons] at hlen
        have hpos : 0 < (cs.takeWhile isWordChar).length := by
          cases hcs : cs.takeWhile isWordChar with
          | nil => rw [hcs] at hw; simp at hw
          | cons a l => simp [hcs]
        have hle : (cs.takeWhile isWordChar).length ≤ cs.length :=
          (List.takeWhile_prefix isWordChar).length_le
        omega
      · rw [show (match c1 :: c2 :: tl with
            | c1 :: c2 :: tail =>
              if c1 == '}' && c2 == '}' then
                some (String.mk (cs.takeWhile isWordChar), tail)
              else none
            | _ => none) =
            (if c1 == '}' && c2 == '}' then
              some (String.mk (cs.takeWhile isWordChar), tl) else none) from rfl,
          if_neg hbr] at h
        exact Option.noConfusion h

/-- The scan of the global replace in `I18nManager.interpolate`: each
matched placeholder is replaced by `String(params[key] || match)` (a
missing or falsy parameter keeps the matched text); on a failed match the
scan advances one character, as the JS regex engine does. -/
def interpGo (ps : List (String × String)) (cs : List Char) : List Char :=
  match cs with
  | [] => []
  | '{' :: '{' :: rest =>
    match h : parseInterp rest with
    | some (k, tail) =>
      let replacement : List Char :=
        match ps.lookup k with
        | some v =>
          if v == "" then '{' :: '{' :: (k.data ++ '}' :: '}' :: [])
          else v.data
        | none => '{' :: '{' :: (k.data ++ '}' :: '}' :: [])
      replacement ++ interpGo ps tail
    | none => '{' :: interpGo ps ('{' :: rest)
  | c :: rest => c :: interpGo ps rest
termination_by cs.length
decreasing_by
  · have := parseInterp_length_lt h
    simp only [List.length_cons]
    omega
  · simp only [List.length_cons]
    omega
  · simp only [List.length_cons]
    omega

/-- `I18nManager.interpolate`: template parameter substitution. -/
def interpolate (template : String) (params : Option (List (String × String))) : String :=
  match params with
  | none => template
  | some ps => String.mk (interpGo ps template.data)

/-- The i18n manager state: the base-language dictionary (loaded from the
opaque en.json data, hence a parameter), the developer-registered locales,
the per-language key-level overrides, the supported-language set and the
current language. -/
structure I18nState where
  englishTranslations : TranslationObject
  developerLocales : List (String × TranslationObject) := []
  globalOverrides : List (String × List (String × String)) := []
  supportedLanguages : List String := ["en"]
  currentLanguage : String := "en"

/-- `Map.prototype.set` on an association list: replace the entry in place
if the key is present, else append. -/
def setAssoc {α : Type} : List (String × α) → String → α → List (String × α)
  | [], k, v => [(k, v)]
  | p :: rest, k, v => if p.1 == k then (k, v) :: rest else p :: setAssoc rest k v

/-- `Set.prototype.add` on a list: append if absent. -/
def addToSet (l : List String) (x : String) : List String :=
  if l.contains x then l else l ++ [x]

/-- `I18nManager.registerLocale`. -/
def registerLocale (st : I18nState) (language : String) (translations : TranslationObject)
    (overrides : Option (List (String × String))) : I18nState :=
  { st with
    developerLocales := setAssoc st.developerLocales language translations,
    supportedLanguages := addToSet st.supportedLanguages language,
    globalOverrides :=
      match overrides with
      | some o => setAssoc st.globalOverrides language o
      | none => st.globalOverrides }

/-- The target-language resolution at the head of `I18nManager.translate`:
`language ? createLanguageCode(language) : this.currentLanguage` (note the
truthiness test, so the empty string also falls back). -/
def I18nState.targetLang (st : I18nState) (language : Option String) : String :=
  match language with
  | some l => if l == "" then st.currentLanguage else l
  | none => st.currentLanguage

/-- The override step of `translate`: `overrides && overrides[key]`
(truthiness, so an empty-string override is skipped). -/
def I18nState.overrideHit (st : I18nState) (target key : String) : Option String :=
  match st.globalOverrides.lookup target with
  | some ov =>
    match ov.lookup key with
    | some v => if v == "" then none else some v
    | none => none
  | none => none

/-- `I18nManager.getDeveloperTranslation`. -/
def I18nState.developerTranslation (st : I18nState) (key target : String) : Option String :=
  (st.developerLocales.lookup target).bind (fun loc => getNestedValue loc key)

/-- The English fallback tail of `translate`: the base dictionary when its
value trims non-empty, else the literal key. -/
def I18nState.englishFallback (st : I18nState) (key : String)
    (params : Option (List (String × String))) : String :=
  match getNestedValue st.englishTranslations key with
  | some e => if jsTrim e == "" then key else interpolate e params
  | none => key

/-- `I18nManager.translate`: override, then developer locale (dot path),
then base language (dot path), then the literal key; the developer and
base steps skip values that trim to the empty string. -/
def I18nState.translate (st : I18nState) (key : String) (language : Option String)
    (params : Option (List (String × String))) : String :=
  let target := st.targetLang language
  match st.overrideHit target key with
  | some v => interpolate v params
  | none =>
    match st.developerTranslation key target with
    | some d => if jsTrim d == "" then st.englishFallback key params else interpolate d params
    | none => st.englishFallback key params

/-- `DEFAULT_FALLBACK_MESSAGES` of the error-translation service. -/
def DEFAULT_FALLBACK_generic : String :=
  "An error occurred while processing your request. Please try again."

/-- The network entry of `DEFAULT_FALLBACK_MESSAGES`. -/
def DEFAULT_FALLBACK_network : String :=
  "Network error occurred. Please check your connection and try again."

/-- The wallet entry of `DEFAULT_FALLBACK_MESSAGES`. -/
def DEFAULT_FALLBACK_wallet : String :=
  "Wallet error occurred. Please check your wallet connection and try again."

/-- The contract entry of `DEFAULT_FALLBACK_MESSAGES`. -/
def DEFAULT_FALLBACK_contract : String :=
  "Smart contract error occurred. Please check the transaction details and try again."

/-- JS truthiness of an optional string (`undefined` and the empty string
are falsy). -/
def truthyStr (o : Option String) : Bool :=
  match o with
  | some s => !s.isEmpty
  | none => false

/-- `a || b` on an optional string against a default. -/
def orDefault (o : Option String) (d : String) : String :=
  if truthyStr o then o.getD "" else d

/-- The default-fallback tail of `getFallbackMessage`: classify the
re-extracted message and pick the built-in default for the type. -/
def defaultFallbackFor (error : JsVal) : String :=
  let errorMessage := extractErrorMessage error none
  match detectErrorType errorMessage with
  | some .NETWORK => DEFAULT_FALLBACK_network
  | some .WALLET => DEFAULT_FALLBACK_wallet
  | some .CONTRACT => DEFAULT_FALLBACK_contract
  | _ => DEFAULT_FALLBACK_generic

/-- The guard `chain && customChainRegistry.has(chain)` of
`getFallbackMessage`, yielding the custom fallbacks consulted. -/
def customFallbacksFor (r : ChainRegistry) (chain : Option String) : Option CustomFallbacks :=
  match chain with
  | some ch => if ch != "" && regHas r ch then regGetCustomFallbacks r ch else none
  | none => none

/-- `getFallbackMessage`: an explicit (truthy) fallback wins; else a custom
chain with `customFallbacks` resolves by detected type with per-entry
defaults; else the built-in defaults.  Note the extraction here runs
without the ecosystem hint, as in the source. -/
def getFallbackMessage (error : JsVal) (customFallback : Option String)
    (chain : Option String) (r : ChainRegistry) : String :=
  if truthyStr customFallback then customFallback.getD ""
  else
    match customFallbacksFor r chain with
    | some cf =>
      let errorMessage := extractErrorMessage error none
      match detectErrorType errorMessage with
      | some .NETWORK => orDefault cf.network DEFAULT_FALLBACK_network
      | some .WALLET => orDefault cf.wallet DEFAULT_FALLBACK_wallet
      | some .CONTRACT => orDefault cf.contract DEFAULT_FALLBACK_contract
      | _ => orDefault cf.generic DEFAULT_FALLBACK_generic
    | none => defaultFallbackFor error

/-- `TranslateErrorOptions`.  `customMappings` is the entry list of the
record in its object insertion order; absent optional fields are `none`. -/
structure Options where
  chain : Option String := none
  ecosystem : Option String := none
  fallbackMessage : Option String := none
  includeOriginalError : Option Bool := none
  customMappings : List (String × String) := []
  language : Option String := none
  autoDetectLanguage : Option Bool := none
  fallbackLanguage : Option String := none
  customLocales : Option (List (String × TranslationObject)) := none

/-- The functional fields of an `EnhancedErrorResult` (the diagnostic
`context` metadata is monitoring data and is not modelled). -/
structure TResult where
  message : String
  translated : Bool
  originalError : Option JsVal := none
  chain : String
  retryable : Bool
  fallbackUsed : Bool

/-- One entry of the `TranslationCache` (the stored timestamp is the
`context.timestamp` the cache refreshes on `set`). -/
structure CacheEntry where
  key : String
  timestamp : Int
  result : TResult

/-- The cache TTL (five minutes in milliseconds). -/
def cacheTtl : Int := 5 * 60 * 1000

/-- The cache capacity. -/
def cacheMaxSize : Nat := 1000

/-- `TranslationCache.get`: a hit within the TTL; an expired entry is
deleted and reads as a miss. -/
def cacheGet (cache : List CacheEntry) (now : Int) (key : String) :
    Option TResult × List CacheEntry :=
  match cache.find? (fun e => e.key == key) with
  | none => (none, cache)
  | some e =>
    if now - e.timestamp > cacheTtl then
      (none, cache.filter (fun x => !(x.key == key)))
    else (some e.result, cache)

/-- `TranslationCache.set`: evict the oldest entry at capacity, then insert
(or refresh) the entry with the current timestamp. -/
def cacheSet (cache : List CacheEntry) (now : Int) (key : String) (r : TResult) :
    List CacheEntry :=
  let c := if cache.length ≥ cacheMaxSize then cache.tail else cache
  if c.any (fun e => e.key == key) then
    c.map (fun e => if e.key == key then ⟨key, now, r⟩ else e)
  else c ++ [⟨key, now, r⟩]

/-- The mutable module-level state the pipeline reads and writes: the
custom chain registry, the i18n manager, the translation cache, and the
current clock value `Date.now()` (time is external and constant within a
call). -/
structure LibState where
  registry : ChainRegistry := []
  i18n : I18nState
  cache : List CacheEntry := []
  now : Int := 0

/-- The external runtime capabilities of a call, which the spec treats as
collaborators: the JS regular-expression engine (`none` = compilation
`SyntaxError`), the language-detection service
(`languageDetectionService.detectFromError`), and `JSON.stringify` of the
options object as used to build cache keys. -/
structure Collab where
  regexTest : String → String → Option Bool
  detectLang : JsVal → String
  serializeOptions : Options → String

/-- The target-language resolution of `translateError`: the `language`
option, else the current i18n language, replaced by the detected language
when `autoDetectLanguage` is set. -/
def resolveTargetLanguage (C : Collab) (i18n : I18nState) (options : Options)
    (error : JsVal) : String :=
  let t0 :=
    match options.language with
    | some l => if l == "" then i18n.currentLanguage else l
    | none => i18n.currentLanguage
  if options.autoDetectLanguage.getD false then C.detectLang error else t0

/-- The `customLocales` registration loop of `translateError`: each entry
is registered in the shared i18n manager (without overrides). -/
def applyCustomLocales (i18n : I18nState) (options : Options) : I18nState :=
  match options.customLocales with
  | some locs => locs.foldl (fun s p => registerLocale s p.1 p.2 none) i18n
  | none => i18n

/-- The early custom-fallback return of `translateError` (lines 414-502):
for a registered custom chain whose `customFallbacks` has a truthy entry
for the detected NETWORK, WALLET or CONTRACT type, the entry is returned
before any mapping is loaded or matched. -/
def earlyCustomFallback (r : ChainRegistry) (chain : String) (errorMessage : String) :
    Option String :=
  if regHas r chain then
    match regGetCustomFallbacks r chain with
    | some cf =>
      match detectErrorType errorMessage with
      | some .NETWORK => if truthyStr cf.network then cf.network else none
      | some .WALLET => if truthyStr cf.wallet then cf.wallet else none
      | some .CONTRACT => if truthyStr cf.contract then cf.contract else none
      | _ => none
    | none => none
  else none

/-- The i18n key of a detected type: `errors.` ++
(`errorType?.toLowerCase() || "unknown"`). -/
def errorTypeKeyOf (errorType : Option ErrorType) : String :=
  match errorType with
  | some t => t.key
  | none => "unknown"

/-- The mapping list a call works with: the loaded chain mappings, with the
per-call custom mappings prepended when any are given. -/
def mappingsFor (tables : CategoryTables) (r : ChainRegistry) (options : Options) :
    List ErrorMapping :=
  let mappings0 := loadErrorMappings tables r (options.chain.getD "ethereum")
  if options.customMappings.isEmpty then mappings0
  else addCustomMappings mappings0 options.customMappings

/-- The body of `translateError` after the input validation (everything
inside the `try`; no branch throws, so it is a total function into a
result and the successor state).  Branches in order: cache probe, target
language resolution, `customLocales` registration, the custom-chain early
fallback, mapping load, per-call custom mappings, matching; on a match the
message (localized when the target language is not `en` and an i18n entry
for the type exists) is returned and cached; otherwise the i18n fallback
for the type is consulted and, failing that, `getFallbackMessage`. -/
def translateErrorBody (C : Collab) (tables : CategoryTables) (error : JsVal)
    (options : Options) (st : LibState) : TResult × LibState :=
  let chain := options.chain.getD "ethereum"
  let includeOriginalError := options.includeOriginalError.getD false
  let origField : Option JsVal := if includeOriginalError then some error else none
  let errorMessage := extractErrorMessage error options.ecosystem
  let cacheKey := errorMessage ++ "_" ++ C.serializeOptions options
  match cacheGet st.cache st.now cacheKey with
  | (some cached, cache2) => (cached, { st with cache := cache2 })
  | (none, cache2) =>
    let targetLanguage := resolveTargetLanguage C st.i18n options error
    let st2 : LibState := { st with cache := cache2, i18n := applyCustomLocales st.i18n options }
    match earlyCustomFallback st2.registry chain errorMessage with
    | some fb =>
      ({ message := fb, translated := false, originalError := origField, chain := chain,
         retryable := false, fallbackUsed := true }, st2)
    | none =>
      let mappings := mappingsFor tables st2.registry options
      let errorType := detectErrorType errorMessage
      let errorTypeKey := errorTypeKeyOf errorType
      match findBestMatch C.regexTest errorMessage mappings with
      | some m =>
        let finalMessage :=
          if targetLanguage != "" && targetLanguage != "en" then
            let translationKey := "errors." ++ errorTypeKey
            let translatedMessage := st2.i18n.translate translationKey (some targetLanguage) none
            if translatedMessage != translationKey then translatedMessage else m.message
          else m.message
        let result : TResult :=
          { message := finalMessage, translated := true, originalError := origField,
            chain := chain, retryable := false, fallbackUsed := false }
        (result, { st2 with cache := cacheSet st2.cache st2.now cacheKey result })
      | none =>
        let i18nFallback := st2.i18n.translate ("errors." ++ errorTypeKey) (some targetLanguage) none
        let translationFound := i18nFallback != "errors." ++ errorTypeKey
        let fallback :=
          if translationFound then i18nFallback
          else getFallbackMessage error options.fallbackMessage (some chain) st2.registry
        ({ message := fallback, translated := translationFound, originalError := origField,
           chain := chain, retryable := false, fallbackUsed := !translationFound }, st2)

/-- `translateError`: the input validation throws on a falsy `error`
argument (before the `try`); everything else runs inside the
`try`/`catch` and returns a result.  The embedding of the body is total,
so the `catch` arm (a defensive net for internal defects) is
unreachable. -/
def translateError (C : Collab) (tables : CategoryTables) (error : JsVal)
    (options : Options) (st : LibState) : Except String (TResult × LibState) :=
  if error.truthy then .ok (translateErrorBody C tables error options st)
  else .error "Error parameter is required and cannot be null or undefined"

/-! Supporting lemmas about the stable descending sort. -/

theorem mem_insertDescBy {α : Type} (key : α → Int) (m a : α) (l : List α) :
    a ∈ insertDescBy key m l ↔ a = m ∨ a ∈ l := by
  induction l with
  | nil => simp [insertDescBy]
  | cons x xs ih =>
    simp only [insertDescBy]
    split
    · simp [List.mem_cons]
    · simp only [List.mem_cons, ih]
      tauto

theorem sorted_insertDescBy {α : Type} (key : α → Int) (m : α) (l : List α)
    (h : l.Pairwise (fun a b => key b ≤ key a)) :
    (insertDescBy key m l).Pairwise (fun a b => key b ≤ key a) := by
  induction l with
  | nil => simp [insertDescBy]
  | cons x xs ih =>
    rcases List.pairwise_cons.mp h with ⟨hx, hxs⟩
    simp only [insertDescBy]
    split
    next hle =>
      refine List.pairwise_cons.mpr ⟨?_, h⟩
      intro b hb
      rcases List.mem_cons.mp hb with rfl | hb'
      · exact hle
      · exact le_trans (hx b hb') hle
    next hgt =>
      refine List.pairwise_cons.mpr ⟨?_, ih hxs⟩
      intro b hb
      rcases (mem_insertDescBy key m b xs).mp hb with rfl | hb'
      · exact le_of_lt (lt_of_not_le hgt)
      · exact hx b hb'

theorem sorted_sortDescBy {α : Type} (key : α → Int) (l : List α) :
    (sortDescBy key l).Pairwise (fun a b => key b ≤ key a) := by
  induction l with
  | nil => simp [sortDescBy]
  | cons x xs ih => exact sorted_insertDescBy key x (sortDescBy key xs) ih

theorem mem_sortDescBy {α : Type} (key : α → Int) (a : α) (l : List α) :
    a ∈ sortDescBy key l ↔ a ∈ l := by
  induction l with
  | nil => simp [sortDescBy]
  | cons x xs ih =>
    simp only [sortDescBy, mem_insertDescBy, ih, List.mem_cons]

theorem filter_insertDescBy {α : Type} (key : α → Int) (m : α) (l : List α) (p : Int) :
    (insertDescBy key m l).filter (fun x => key x == p) =
      if key m == p then m :: l.filter (fun x => key x == p)
      else l.filter (fun x => key x == p) := by
  induction l with
  | nil =>
    by_cases h : key m = p <;> simp [insertDescBy, h]
  | cons x xs ih =>
    simp only [insertDescBy]
    split
    next hle =>
      by_cases hmp : key m = p <;> simp [List.filter_cons, hmp]
    next hgt =>
      have hxm : key m < key x := lt_of_not_le hgt
      by_cases hmp : key m = p
      · have hxp : key x ≠ p := by
          intro hE
          rw [hmp] at hxm
          rw [hE] at hxm
          exact lt_irrefl _ hxm
        simp [List.filter_cons, ih, hmp, hxp]
      · simp [List.filter_cons, ih, hmp]

/-- Stability of the sort: elements of equal key keep their relative order
(their filtered subsequence is unchanged). -/
theorem filter_sortDescBy {α : Type} (key : α → Int) (l : List α) (p : Int) :
    (sortDescBy key l).filter (fun x => key x == p) = l.filter (fun x => key x == p) := by
  induction l with
  | nil => simp [sortDescBy]
  | cons x xs ih =>
    by_cases hxp : key x = p
    · simp [sortDescBy, filter_insertDescBy, ih, List.filter_cons, hxp]
    · simp [sortDescBy, filter_insertDescBy, ih, List.filter_cons, hxp]

/-- In a list sorted descending by key, the first element satisfying a
predicate has the maximal key among all elements satisfying it. -/
theorem find?_sorted_max {α : Type} (key : α → Int) (p : α → Bool) (l : List α) (m : α)
    (hs : l.Pairwise (fun a b => key b ≤ key a)) (hf : l.find? p = some m) :
    ∀ x ∈ l, p x = true → key x ≤ key m := by
  induction l with
  | nil => simp at hf
  | cons a as ih =>
    rcases List.pairwise_cons.mp hs with ⟨ha, has⟩
    intro x hx hpx
    cases hpa : p a with
    | true =>
      have hm : a = m := by
        rw [List.find?_cons, hpa] at hf
        exact Option.some.inj hf
      subst hm
      rcases List.mem_cons.mp hx with rfl | hx'
      · exact le_refl _
      · exact ha x hx'
    | false =>
      rw [List.find?_cons, hpa] at hf
      rcases List.mem_cons.mp hx with rfl | hx'
      · rw [hpa] at hpx
        exact absurd hpx (by simp)
      · exact ih has hf x hx' hpx

theorem sorted_loadErrorMappings (t : CategoryTables) (r : ChainRegistry) (chain : String) :
    (loadErrorMappings t r chain).Pairwise (fun a b => b.prio ≤ a.prio) := by
  unfold loadErrorMappings
  exact sorted_sortDescBy ErrorMapping.prio _

theorem mem_loadErrorMappings_iff (t : CategoryTables) (r : ChainRegistry) (chain : String)
    (m : ErrorMapping) :
    m ∈ loadErrorMappings t r chain ↔
      m ∈ (if regHas r chain then regGetErrorMappings r chain else []) ++
          (if supportedChains.contains chain then
            (getEnabledErrorCategories chain).foldl
              (fun acc cfg =>
                match (ERROR_CATEGORY_MAPPINGS t).lookup cfg.category with
                | some ms => acc ++ ms
                | none => acc) []
          else allCategoriesConcat t) := by
  unfold loadErrorMappings
  exact mem_sortDescBy ErrorMapping.prio m _

/-! Supporting lemmas about association-list update and the i18n state. -/

theorem lookup_setAssoc_self {α : Type} (l : List (String × α)) (k : String) (v : α) :
    (setAssoc l k v).lookup k = some v := by
  induction l with
  | nil => simp [setAssoc, List.lookup]
  | cons q rest ih =>
    obtain ⟨qk, qv⟩ := q
    simp only [setAssoc]
    split
    next h => simp [List.lookup]
    next h =>
      have hne : (k == qk) = false := by
        rw [beq_eq_false_iff_ne]
        intro hk
        subst hk
        simp at h
      simp [List.lookup, hne, ih]

theorem lookup_setAssoc_of_ne {α : Type} (l : List (String × α)) (k k' : String) (v : α)
    (h : k' ≠ k) : (setAssoc l k v).lookup k' = l.lookup k' := by
  induction l with
  | nil =>
    have hne : (k' == k) = false := beq_eq_false_iff_ne.mpr h
    simp [setAssoc, List.lookup, hne]
  | cons q rest ih =>
    obtain ⟨qk, qv⟩ := q
    simp only [setAssoc]
    split
    next hq =>
      have hq' : qk = k := by simpa using hq
      subst hq'
      have hne : (k' == qk) = false := beq_eq_false_iff_ne.mpr h
      simp [List.lookup, hne]
    next hq => simp [List.lookup, ih]

theorem mem_addToSet_self (l : List String) (x : String) : x ∈ addToSet l x := by
  unfold addToSet
  split
  next h => simpa using h
  next h => simp

theorem mem_addToSet_of_mem (l : List String) (x y : String) (h : y ∈ l) :
    y ∈ addToSet l x := by
  unfold addToSet
  split
  · exact h
  · exact List.mem_append_left _ h

theorem supported_mono_registerLocale (st : I18nState) (lang : String)
    (tr : TranslationObject) (y : String) (h : y ∈ st.supportedLanguages) :
    y ∈ (registerLocale st lang tr none).supportedLanguages := by
  simp only [registerLocale]
  exact mem_addToSet_of_mem _ _ _ h

theorem supported_mono_foldl (locs : List (String × TranslationObject)) (st : I18nState)
    (y : String) (h : y ∈ st.supportedLanguages) :
    y ∈ (locs.foldl (fun s p => registerLocale s p.1 p.2 none) st).supportedLanguages := by
  induction locs generalizing st with
  | nil => exact h
  | cons q rest ih =>
    exact ih _ (supported_mono_registerLocale st q.1 q.2 y h)

theorem mem_supported_foldl (locs : List (String × TranslationObject)) (st : I18nState)
    (k : String) (v : TranslationObject) (hmem : (k, v) ∈ locs) :
    k ∈ (locs.foldl (fun s p => registerLocale s p.1 p.2 none) st).supportedLanguages := by
  induction locs generalizing st with
  | nil => simp at hmem
  | cons q rest ih =>
    rcases List.mem_cons.mp hmem with rfl | hmem'
    · exact supported_mono_foldl rest _ k (by
        simp only [registerLocale]
        exact mem_addToSet_self _ _)
    · exact ih _ hmem'

theorem lookup_foldl_registerLocale_of_not_mem (locs : List (String × TranslationObject))
    (st : I18nState) (k : String) (h : ∀ q ∈ locs, q.1 ≠ k) :
    (locs.foldl (fun s p => registerLocale s p.1 p.2 none) st).developerLocales.lookup k =
      st.developerLocales.lookup k := by
  induction locs generalizing st with
  | nil => rfl
  | cons q rest ih =>
    simp only [List.foldl]
    rw [ih _ (fun r hr => h r (List.mem_cons_of_mem _ hr))]
    simp only [registerLocale]
    exact lookup_setAssoc_of_ne _ _ _ _ (fun hk => h q (List.mem_cons_self _ _) hk.symm)

theorem lookup_foldl_registerLocale_of_mem (locs : List (String × TranslationObject))
    (st : I18nState) (k : String) (v : TranslationObject)
    (hdist : locs.Pairwise (fun a b => a.1 ≠ b.1)) (hmem : (k, v) ∈ locs) :
    (locs.foldl (fun s p => registerLocale s p.1 p.2 none) st).developerLocales.lookup k =
      some v := by
  induction locs generalizing st with
  | nil => simp at hmem
  | cons q rest ih =>
    rcases List.pairwise_cons.mp hdist with ⟨hq, hrest⟩
    rcases List.mem_cons.mp hmem with rfl | hmem'
    · simp only [List.foldl]
      rw [lookup_foldl_registerLocale_of_not_mem rest _ k
        (fun r hr => (hq r hr).symm)]
      simp only [registerLocale]
      exact lookup_setAssoc_self _ _ _
    · simp only [List.foldl]
      exact ih _ hrest hmem'

/-- `translateErrorBody` never touches the i18n state when no
`customLocales` are supplied. -/
theorem translateErrorBody_i18n (C : Collab) (tables : CategoryTables) (error : JsVal)
    (options : Options) (st : LibState) (hnone : options.customLocales = none) :
    (translateErrorBody C tables error options st).2.i18n = st.i18n := by
  have happ : applyCustomLocales st.i18n options = st.i18n := by
    simp [applyCustomLocales, hnone]
  unfold translateErrorBody
  dsimp only
  split
  next cached cache2 heq => rfl
  next cache2 heq =>
    split
    next fb heq2 => simpa using happ
    next heq2 =>
      split
      next m heq3 => simpa using happ
      next heq3 => simpa using happ

/-! Supporting lemmas about fallback resolution. -/

theorem orDefault_ne_empty (o : Option String) (d : String) (hd : d ≠ "") :
    orDefault o d ≠ "" := by
  unfold orDefault
  split
  next h =>
    cases o with
    | none => simp [truthyStr] at h
    | some s =>
      simp only [truthyStr, Bool.not_eq_true'] at h
      simpa using (isEmpty_false_iff s).mp h
  next h => exact hd

theorem defaultFallbackFor_ne_empty (error : JsVal) : defaultFallbackFor error ≠ "" := by
  unfold defaultFallbackFor
  dsimp only
  split <;> decide

theorem getFallbackMessage_ne_empty (error : JsVal) (cfb : Option String)
    (chain : Option String) (r : ChainRegistry) :
    getFallbackMessage error cfb chain r ≠ "" := by
  unfold getFallbackMessage
  split
  next h =>
    cases cfb with
    | none => simp [truthyStr] at h
    | some s =>
      simp only [truthyStr, Bool.not_eq_true'] at h
      simpa using (isEmpty_false_iff s).mp h
  next =>
    split
    next cf heq =>
      dsimp only
      split <;> exact orDefault_ne_empty _ _ (by decide)
    next heq => exact defaultFallbackFor_ne_empty error

theorem getFallbackMessage_of_truthy (error : JsVal) (chain : Option String)
    (r : ChainRegistry) (f : String) (hne : f ≠ "") :
    getFallbackMessage error (some f) chain r = f := by
  unfold getFallbackMessage
  rw [if_pos]
  · rfl
  · simpa [truthyStr, Bool.not_eq_true', isEmpty_false_iff] using hne

/-! Branch characterizations of `translateErrorBody` used by the claim
theorems. -/

/-- C6: for a registered custom chain whose `customFallbacks` has a truthy
entry for the NETWORK, WALLET or CONTRACT type detected from the
extracted message, `translateError` returns that entry early with
`translated = false`, without assembling the mapping list or running the
matcher: the category tables are universally quantified and absent from
the conclusion, so the result is the same even when some mapping's
pattern would have matched. -/
theorem translateError_early_custom_fallback
    (C : Collab) (tables : CategoryTables) (error : JsVal) (options : Options)
    (st : LibState) (fb : String)
    (he : error.truthy = true) (hcache : st.cache = [])
    (hearly : earlyCustomFallback st.registry (options.chain.getD "ethereum")
        (extractErrorMessage error options.ecosystem) = some fb) :
    translateError C tables error options st =
      .ok ({ message := fb, translated := false,
             originalError := if options.includeOriginalError.getD false then some error else none,
             chain := options.chain.getD "ethereum", retryable := false, fallbackUsed := true },
           { st with cache := [], i18n := applyCustomLocales st.i18n options }) := by
  unfold translateError translateErrorBody
  rw [if_pos he, hcache]
  simp only [cacheGet, List.find?_nil]
  rw [hearly]

/-- The full no-match fallback branch with an i18n miss. -/
theorem translateErrorBody_no_match (C : Collab) (tables : CategoryTables) (error : JsVal)
    (options : Options) (st : LibState)
    (hcache : st.cache = [])
    (hearly : earlyCustomFallback st.registry (options.chain.getD "ethereum")
      (extractErrorMessage error options.ecosystem) = none)
    (hnomatch : findBestMatch C.regexTest (extractErrorMessage error options.ecosystem)
      (mappingsFor tables st.registry options) = none)
    (hmiss : (applyCustomLocales st.i18n options).translate
      ("errors." ++ errorTypeKeyOf (detectErrorType (extractErrorMessage error options.ecosystem)))
      (some (resolveTargetLanguage C st.i18n options error)) none =
      "errors." ++ errorTypeKeyOf (detectErrorType (extractErrorMessage error options.ecosystem))) :
    translateErrorBody C tables error options st =
      ({ message := getFallbackMessage error options.fallbackMessage
           (some (options.chain.getD "ethereum")) st.registry,
         translated := false,
         originalError := if options.includeOriginalError.getD false then some error else none,
         chain := options.chain.getD "ethereum", retryable := false, fallbackUsed := true },
       { st with cache := [], i18n := applyCustomLocales st.i18n options }) := by
  unfold translateErrorBody
  rw [hcache]
  simp only [cacheGet, List.find?_nil]
  rw [hearly]
  rw [hnomatch]
  rw [hmiss]
  simp

/-- The match branch when the effective target language is `en` (so the
i18n replacement of the matched message does not fire). -/
theorem translateErrorBody_match_en (C : Collab) (tables : CategoryTables) (error : JsVal)
    (options : Options) (st : LibState) (m : ErrorMapping)
    (hcache : st.cache = [])
    (hearly : earlyCustomFallback st.registry (options.chain.getD "ethereum")
      (extractErrorMessage error options.ecosystem) = none)
    (hmatch : findBestMatch C.regexTest (extractErrorMessage error options.ecosystem)
      (mappingsFor tables st.registry options) = some m)
    (hlang : resolveTargetLanguage C st.i18n options error = "en") :
    (translateErrorBody C tables error options st).1 =
      { message := m.message, translated := true,
        originalError := if options.includeOriginalError.getD false then some error else none,
        chain := options.chain.getD "ethereum", retryable := false,
        fallbackUsed := false } := by
  unfold translateErrorBody
  rw [hcache]
  simp only [cacheGet, List.find?_nil]
  rw [hearly]
  rw [hmatch, hlang]
  simp

/-- With an empty cache, the i18n state after a call is exactly the
`customLocales` registration applied to the state before it. -/
theorem translateErrorBody_i18n_of_cache_nil (C : Collab) (tables : CategoryTables)
    (error : JsVal) (options : Options) (st : LibState) (hcache : st.cache = []) :
    (translateErrorBody C tables error options st).2.i18n =
      applyCustomLocales st.i18n options := by
  unfold translateErrorBody
  rw [hcache]
  simp only [cacheGet, List.find?_nil]
  split
  next fb heq => rfl
  next heq =>
    split
    next m heq2 => rfl
    next heq2 => rfl

/-- `validateConfig` mapping-loop characterization: no error exactly when
every mapping has a non-empty pattern and message. -/
theorem firstMappingError_none_iff (l : List ErrorMapping) (i : Nat) :
    firstMappingError l i = none ↔ ∀ m ∈ l, m.pattern ≠ "" ∧ m.message ≠ "" := by
  induction l generalizing i with
  | nil => simp [firstMappingError]
  | cons m rest ih =>
    simp only [firstMappingError]
    by_cases hp : m.pattern = ""
    · simp [hp]
    · by_cases hm : m.message = ""
      · simp [hp, hm]
      · rw [if_neg (by simpa using hp), if_neg (by simpa using hm), ih]
        constructor
        · intro h x hx
          rcases List.mem_cons.mp hx with rfl | hx'
          · exact ⟨hp, hm⟩
          · exact h x hx'
        · intro h x hx
          exact h x (List.mem_cons_of_mem _ hx)

theorem validateConfig_none_iff (c : CustomChainConfig) :
    validateConfig c = none ↔
      c.chainId ≠ "" ∧ c.name ≠ "" ∧
        ∀ m ∈ c.errorMappings, m.pattern ≠ "" ∧ m.message ≠ "" := by
  unfold validateConfig
  by_cases h1 : c.chainId = ""
  · simp [h1]
  · by_cases h2 : c.name = ""
    · simp [h1, h2]
    · rw [if_neg (by simpa using h1), if_neg (by simpa using h2)]
      rw [firstMappingError_none_iff]
      simp [h1, h2]

theorem validateConfig_ne_none_iff (c : CustomChainConfig) :
    validateConfig c ≠ none ↔
      c.chainId = "" ∨ c.name = "" ∨
        ∃ m ∈ c.errorMappings, m.pattern = "" ∨ m.message = "" := by
  constructor
  · intro h
    by_cases h1 : c.chainId = ""
    · exact Or.inl h1
    by_cases h2 : c.name = ""
    · exact Or.inr (Or.inl h2)
    refine Or.inr (Or.inr ?_)
    by_contra hno
    apply h
    rw [validateConfig_none_iff]
    refine ⟨h1, h2, fun m hm => ⟨fun hp => hno ⟨m, hm, Or.inl hp⟩,
      fun hq => hno ⟨m, hm, Or.inr hq⟩⟩⟩
  · intro h hnone
    rw [validateConfig_none_iff] at hnone
    obtain ⟨h1, h2, h3⟩ := hnone
    rcases h with h | h | ⟨m, hm, hpq⟩
    · exact h1 h
    · exact h2 h
    · rcases hpq with hp | hq
      · exact (h3 m hm).1 hp
      · exact (h3 m hm).2 hq

/-! Concrete fixtures for the closed instances below. -/

/-- A concrete collaborator instance.  No closed instance below exercises
it: no mapping they use sets `isRegex` except the deliberately invalid
pattern of the C4 instance (for which `none`, a compilation SyntaxError,
is the correct model), none sets `autoDetectLanguage`, and every instance
runs against an empty cache, so the serialized options string is never
compared. -/
def concreteCollab : Collab :=
  { regexTest := fun _ _ => none, detectLang := fun _ => "en",
    serializeOptions := fun _ => "" }

/-- Modelled from the spec: the static per-category mapping tables
(src/errors/*.json) are not under the source tree; the spec treats them as
opaque data but names representative content (an erc20 balance pattern
with the built-in priority 10, gas and wallet phrases with specific full
patterns).  This sample instantiation carries such entries so closed
instances can be evaluated. -/
def sampleTables : CategoryTables :=
  { erc20 := [{ pattern := "ERC20: transfer amount exceeds balance",
                message := "Insufficient token balance for this transfer.",
                priority := some 10 }],
    gas := [{ pattern := "out of gas",
              message := "Transaction ran out of gas. Please increase your gas limit and try again.",
              priority := some 10 }],
    wallet := [{ pattern := "wallet exploded zz", message := "MAPPEDW", priority := some 10 }],
    network := [], transaction := [], evm := [], contract := [] }

/-- Modelled from the spec: a minimal base-language dictionary state (the
real en.json is opaque data; the instances below need only that the keys
they probe are absent). -/
def emptyI18n : I18nState := { englishTranslations := [] }

/-- A fresh library state over the empty registry. -/
def freshState : LibState := { i18n := emptyI18n }

/-! ### Claim C1 -/

/-- C1 counterexample: the empty string is an error input squarely inside
the claim (any string), and so is `null` (the claim says null-ish values
are included); `translateError` throws its required-parameter error on
both instead of returning a result — the input validation runs before the
`try` block. -/
theorem translateError_throws_on_falsy_error :
    translateError concreteCollab sampleTables (JsVal.vstr "") {} freshState =
      Except.error "Error parameter is required and cannot be null or undefined"
    ∧ translateError concreteCollab sampleTables JsVal.vnull {} freshState =
      Except.error "Error parameter is required and cannot be null or undefined" :=
  ⟨rfl, rfl⟩

/-- C1 (amended): for every truthy error value, every options object and
every state, `translateError` returns a result and never throws; it
throws (the descriptive required-parameter error) exactly on falsy error
arguments. -/
theorem translateError_total_of_truthy (C : Collab) (tables : CategoryTables)
    (error : JsVal) (options : Options) (st : LibState) (h : error.truthy = true) :
    ∃ r st2, translateError C tables error options st = Except.ok (r, st2) := by
  refine ⟨(translateErrorBody C tables error options st).1,
    (translateErrorBody C tables error options st).2, ?_⟩
  unfold translateError
  rw [if_pos h]

theorem translateError_total_of_truthy_witness :
    (JsVal.vstr "out of gas").truthy = true ∧
      ∃ r st2, translateError concreteCollab sampleTables (JsVal.vstr "out of gas") {}
        freshState = Except.ok (r, st2) :=
  ⟨by decide, translateError_total_of_truthy concreteCollab sampleTables
    (JsVal.vstr "out of gas") {} freshState (by decide)⟩

/-! ### Claim C4 -/

/-- The matcher as claim C4 words it, for comparison with the source
`matchesPattern`: on an invalid regular expression the pattern falls back
to SUBSTRING comparison of the lower-cased message against the
lower-cased pattern. -/
def substrFallbackMatchesPattern (regexTest : String → String → Option Bool)
    (errorMessage : String) (m : ErrorMapping) : Bool :=
  let message := jsToLower errorMessage
  let patternLower := jsToLower m.pattern
  if m.isRegex.getD false then
    match regexTest m.pattern errorMessage with
    | some b => b
    | none => jsIncludes message patternLower
  else message == patternLower

/-- A mapping whose pattern has an unbalanced parenthesis:
`new RegExp` on it throws a SyntaxError in JS, modelled by the engine
returning `none`. -/
def unbalancedRegexMapping : ErrorMapping :=
  { pattern := "(def", message := "X", isRegex := some true }

/-- C4 counterexample: on the invalid pattern the source falls back to
exact comparison, not substring comparison: the message contains the
pattern as a proper substring, the claim resolution matches, the code
does not (and does not throw). -/
theorem matchesPattern_invalid_regex_counterexample :
    matchesPattern (fun _ _ => none) "abc (def" unbalancedRegexMapping = false
    ∧ substrFallbackMatchesPattern (fun _ _ => none) "abc (def" unbalancedRegexMapping = true := by
  decide

/-- C4 (amended): pattern matching never throws, and a mapping with
`isRegex` whose pattern fails regex compilation degrades to
case-insensitive EXACT comparison of message and pattern (not substring
comparison). -/
theorem matchesPattern_invalid_regex_exact (regexTest : String → String → Option Bool)
    (errorMessage : String) (m : ErrorMapping)
    (hr : m.isRegex = some true) (hfail : regexTest m.pattern errorMessage = none) :
    matchesPattern regexTest errorMessage m =
      (jsToLower errorMessage == jsToLower m.pattern) := by
  unfold matchesPattern
  rw [hr, hfail]
  rfl

theorem matchesPattern_invalid_regex_exact_witness :
    matchesPattern (fun _ _ => none) "ABC (DEF" unbalancedRegexMapping =
      (jsToLower "ABC (DEF" == jsToLower "(def") :=
  matchesPattern_invalid_regex_exact (fun _ _ => none) "ABC (DEF"
    unbalancedRegexMapping rfl rfl

/-! ### Claim C8 -/

/-- C8: `register` fails exactly on a duplicate chainId or an invalid
config (empty chainId or name, or a mapping with an empty pattern or
message); a duplicate is reported as such; a failure commits nothing; a
normal return appends the chain, which is then registered. -/
theorem register_spec (r : ChainRegistry) (c : CustomChainConfig) :
    ((register r c).1 ≠ none ↔
      regHas r c.chainId = true ∨ c.chainId = "" ∨ c.name = "" ∨
        ∃ m ∈ c.errorMappings, m.pattern = "" ∨ m.message = "")
    ∧ (regHas r c.chainId = true → (register r c).1 = some (RegError.duplicate c.chainId))
    ∧ ((register r c).1 ≠ none → (register r c).2 = r)
    ∧ ((register r c).1 = none →
        (register r c).2 = r ++ [(c.chainId, c)]
        ∧ regHas (register r c).2 c.chainId = true) := by
  unfold register
  by_cases hdup : regHas r c.chainId = true
  · rw [if_pos hdup]
    refine ⟨?_, ?_, ?_, ?_⟩
    · simp [hdup]
    · intro _
      rfl
    · intro _
      rfl
    · intro h
      simp at h
  · rw [if_neg hdup]
    rcases hv : validateConfig c with _ | e
    · refine ⟨?_, ?_, ?_, ?_⟩
      · constructor
        · intro h
          simp at h
        · intro h
          rcases h with h | h
          · exact absurd h hdup
          · exact absurd hv (by
              have := (validateConfig_ne_none_iff c).mpr h
              simpa using this)
      · intro h
        exact absurd h hdup
      · intro h
        simp at h
      · intro _
        refine ⟨rfl, ?_⟩
        simp [regHas, List.any_append]
    · refine ⟨?_, ?_, ?_, ?_⟩
      · constructor
        · intro _
          exact Or.inr ((validateConfig_ne_none_iff c).mp (by simp [hv]))
        · intro _
          simp
      · intro h
        exact absurd h hdup
      · intro _
        rfl
      · intro h
        simp at h

/-- A valid custom chain configuration. -/
def witnessChain : CustomChainConfig :=
  { chainId := "w-chain", name := "Witness Chain",
    errorMappings := [{ pattern := "w error", message := "W message" }] }

theorem register_spec_witness :
    (register [] witnessChain).1 = none ∧
      (register [] witnessChain).2 = [] ++ [(witnessChain.chainId, witnessChain)]
      ∧ regHas (register [] witnessChain).2 witnessChain.chainId = true :=
  ⟨by decide, (register_spec [] witnessChain).2.2.2 (by decide)⟩

/-! ### Claim C9 -/

/-- C9: for a chain string neither built-in nor registered custom,
`loadErrorMappings` is the priority-sorted concatenation of every built-in
category table — not the empty list (whenever the tables hold anything at
all). -/
theorem loadErrorMappings_unrecognized (t : CategoryTables) (r : ChainRegistry)
    (chain : String)
    (hb : supportedChains.contains chain = false) (hc : regHas r chain = false) :
    loadErrorMappings t r chain = sortDescBy ErrorMapping.prio (allCategoriesConcat t)
    ∧ (allCategoriesConcat t ≠ [] → loadErrorMappings t r chain ≠ []) := by
  have heq : loadErrorMappings t r chain =
      sortDescBy ErrorMapping.prio (allCategoriesConcat t) := by
    unfold loadErrorMappings
    rw [hc, hb]
    simp
  refine ⟨heq, ?_⟩
  intro hne hnil
  obtain ⟨a, ha⟩ := List.exists_mem_of_ne_nil _ hne
  have hmem : a ∈ loadErrorMappings t r chain := by
    rw [heq]
    exact (mem_sortDescBy _ _ _).mpr ha
  rw [hnil] at hmem
  simp at hmem

theorem loadErrorMappings_unrecognized_witness :
    supportedChains.contains "weird-chain" = false ∧
      loadErrorMappings sampleTables [] "weird-chain" =
        sortDescBy ErrorMapping.prio (allCategoriesConcat sampleTables)
      ∧ loadErrorMappings sampleTables [] "weird-chain" ≠ [] :=
  ⟨by decide,
   (loadErrorMappings_unrecognized sampleTables [] "weird-chain" (by decide) (by decide)).1,
   (loadErrorMappings_unrecognized sampleTables [] "weird-chain" (by decide) (by decide)).2
     (by decide)⟩

/-! ### Claim C2 -/

/-- A custom chain carrying only a network custom fallback. -/
def cfbxChain : CustomChainConfig :=
  { chainId := "cfbx", name := "Cfbx Chain", errorMappings := [],
    customFallbacks := some { network := some "NETFB" } }

/-- A state with `cfbxChain` registered. -/
def stCfbx : LibState := { registry := [("cfbx", cfbxChain)], i18n := emptyI18n }

/-- A call against `cfbxChain` with an explicit fallback message. -/
def cfbxOptions : Options := { chain := some "cfbx", fallbackMessage := some "MYFB" }

/-- C2 counterexample: no mapping matches the network-type message, an
explicit `fallbackMessage` is supplied, yet the result message is the
custom chain's network fallback, not the explicit `fallbackMessage` the
claim requires: the custom-chain early return pre-empts the whole
fallback resolution. -/
theorem translateError_fallback_counterexample :
    (∀ m ∈ mappingsFor sampleTables stCfbx.registry cfbxOptions,
      matchesPattern concreteCollab.regexTest
        (extractErrorMessage (JsVal.vstr "connection exploded qqq") none) m = false)
    ∧ (translateError concreteCollab sampleTables (JsVal.vstr "connection exploded qqq")
        cfbxOptions stCfbx).toOption.map (fun p => (p.1.message, p.1.translated)) =
        some ("NETFB", false)
    ∧ cfbxOptions.fallbackMessage = some "MYFB"
    ∧ ("NETFB" : String) ≠ "MYFB" := by
  decide

/-- C2 (amended): when no mapping matches, the custom-chain early fallback
does not fire, and the i18n lookup for the detected type misses (when it
hits, the result is instead that i18n message with `translated = true`),
the result has `translated = false` and a non-empty message resolved by
`getFallbackMessage`: the explicit non-empty `fallbackMessage` when
supplied, else the custom chain fallback for the detected/generic type,
else the built-in default. -/
theorem translateError_fallback_resolution
    (C : Collab) (tables : CategoryTables) (error : JsVal) (options : Options)
    (st : LibState)
    (he : error.truthy = true) (hcache : st.cache = [])
    (hearly : earlyCustomFallback st.registry (options.chain.getD "ethereum")
      (extractErrorMessage error options.ecosystem) = none)
    (hnomatch : findBestMatch C.regexTest (extractErrorMessage error options.ecosystem)
      (mappingsFor tables st.registry options) = none)
    (hmiss : (applyCustomLocales st.i18n options).translate
      ("errors." ++ errorTypeKeyOf (detectErrorType (extractErrorMessage error options.ecosystem)))
      (some (resolveTargetLanguage C st.i18n options error)) none =
      "errors." ++ errorTypeKeyOf (detectErrorType (extractErrorMessage error options.ecosystem))) :
    ∃ r st2, translateError C tables error options st = Except.ok (r, st2) ∧
      r.translated = false ∧
      r.message = getFallbackMessage error options.fallbackMessage
        (some (options.chain.getD "ethereum")) st.registry ∧
      r.message ≠ "" ∧
      ∀ f, options.fallbackMessage = some f → f ≠ "" → r.message = f := by
  have hbody := translateErrorBody_no_match C tables error options st hcache hearly
    hnomatch hmiss
  refine ⟨{ message := getFallbackMessage error options.fallbackMessage
                (some (options.chain.getD "ethereum")) st.registry,
            translated := false,
            originalError := if options.includeOriginalError.getD false then some error
              else none,
            chain := options.chain.getD "ethereum", retryable := false,
            fallbackUsed := true },
    { st with cache := [], i18n := applyCustomLocales st.i18n options },
    ?_, rfl, rfl, ?_, ?_⟩
  · unfold translateError
    rw [if_pos he, hbody]
  · exact getFallbackMessage_ne_empty _ _ _ _
  · intro f hf hne
    show getFallbackMessage error options.fallbackMessage
      (some (options.chain.getD "ethereum")) st.registry = f
    rw [hf]
    exact getFallbackMessage_of_truthy _ _ _ _ hne

theorem translateError_fallback_resolution_witness :
    ∃ r st2, translateError concreteCollab sampleTables (JsVal.vstr "completely unknown zz")
        { fallbackMessage := some "WFALL" } freshState = Except.ok (r, st2) ∧
      r.translated = false ∧
      r.message = getFallbackMessage (JsVal.vstr "completely unknown zz") (some "WFALL")
        (some "ethereum") [] ∧
      r.message ≠ "" ∧
      ∀ f, (some "WFALL" : Option String) = some f → f ≠ "" → r.message = f :=
  translateError_fallback_resolution concreteCollab sampleTables
    (JsVal.vstr "completely unknown zz") { fallbackMessage := some "WFALL" } freshState
    (by decide) rfl (by decide) (by decide) (by decide)

/-! ### Claim C3 -/

/-- A call against `cfbxChain` carrying a per-call custom mapping that
matches the message. -/
def customMapOptions : Options :=
  { chain := some "cfbx", customMappings := [("connection exploded qqq", "CUSTOMMSG")] }

/-- C3 counterexample: the per-call custom mapping matches the extracted
message, yet the returned message is the custom chain's network fallback,
not the custom mapping's message: the early return runs before custom
mappings are consulted at all. -/
theorem translateError_custom_mapping_counterexample :
    matchesPattern concreteCollab.regexTest
      (extractErrorMessage (JsVal.vstr "connection exploded qqq") none)
      { pattern := "connection exploded qqq", message := "CUSTOMMSG", priority := some 100 } = true
    ∧ (translateError concreteCollab sampleTables (JsVal.vstr "connection exploded qqq")
        customMapOptions stCfbx).toOption.map (fun p => p.1.message) = some "NETFB"
    ∧ ("NETFB" : String) ≠ "CUSTOMMSG" := by
  decide

/-- C3 (amended): when the custom-chain early fallback does not pre-empt
the call and the effective target language is `en` (when it is not, a
present i18n entry for the detected type replaces the matched message),
the first per-call custom mapping whose pattern matches wins over every
built-in chain mapping and every custom-chain mapping: the result carries
exactly its message. -/
theorem translateError_custom_mapping_wins
    (C : Collab) (tables : CategoryTables) (error : JsVal) (options : Options)
    (st : LibState) (cm : ErrorMapping)
    (he : error.truthy = true) (hcache : st.cache = [])
    (hearly : earlyCustomFallback st.registry (options.chain.getD "ethereum")
      (extractErrorMessage error options.ecosystem) = none)
    (hlang : resolveTargetLanguage C st.i18n options error = "en")
    (hcm : (options.customMappings.map (fun p =>
        ({ pattern := p.1, message := p.2, priority := some 100 } : ErrorMapping))).find?
        (matchesPattern C.regexTest (extractErrorMessage error options.ecosystem)) = some cm) :
    ∃ st2, translateError C tables error options st =
      Except.ok ({ message := cm.message, translated := true,
                   originalError := if options.includeOriginalError.getD false
                     then some error else none,
                   chain := options.chain.getD "ethereum", retryable := false,
                   fallbackUsed := false }, st2) := by
  have hne : options.customMappings.isEmpty = false := by
    cases hcl : options.customMappings with
    | nil =>
      rw [hcl] at hcm
      simp at hcm
    | cons a l => rfl
  have hmatch : findBestMatch C.regexTest (extractErrorMessage error options.ecosystem)
      (mappingsFor tables st.registry options) = some cm := by
    unfold mappingsFor
    rw [hne]
    unfold addCustomMappings findBestMatch
    simp only [Bool.false_eq_true, if_false, List.find?_append, hcm]
    rfl
  have hbody := translateErrorBody_match_en C tables error options st cm hcache hearly
    hmatch hlang
  refine ⟨(translateErrorBody C tables error options st).2, ?_⟩
  unfold translateError
  rw [if_pos he]
  rw [← hbody]

theorem translateError_custom_mapping_wins_witness :
    ∃ st2, translateError concreteCollab sampleTables (JsVal.vstr "boz error")
        { customMappings := [("boz error", "CUSTOM3")] } freshState =
      Except.ok ({ message := "CUSTOM3", translated := true, originalError := none,
                   chain := "ethereum", retryable := false, fallbackUsed := false }, st2) :=
  translateError_custom_mapping_wins concreteCollab sampleTables (JsVal.vstr "boz error")
    { customMappings := [("boz error", "CUSTOM3")] } freshState
    { pattern := "boz error", message := "CUSTOM3", priority := some 100 }
    (by decide) rfl (by decide) rfl (by decide)

/-! ### Claim C5 -/

/-- A custom chain with two mappings matching the same message at distinct
priorities AND a contract custom fallback that intercepts the call. -/
def prioInterceptChain : CustomChainConfig :=
  { chainId := "prio-cfb", name := "Prio Cfb",
    errorMappings := [{ pattern := "revert boom", message := "M20", priority := some 20 },
                      { pattern := "revert boom", message := "M10", priority := some 10 }],
    customFallbacks := some { contract := some "CFBC" } }

/-- A state with `prioInterceptChain` registered. -/
def stPrioIntercept : LibState :=
  { registry := [("prio-cfb", prioInterceptChain)], i18n := emptyI18n }

/-- C5 counterexample: two mappings of the same chain both match the
message and have priorities 20 over 10, yet `translateError` returns
neither mapping's message — the detected CONTRACT type hits the chain's
custom fallback before any mapping is consulted. -/
theorem translateError_priority_counterexample :
    matchesPattern concreteCollab.regexTest
      (extractErrorMessage (JsVal.vstr "revert boom") none)
      { pattern := "revert boom", message := "M20", priority := some 20 } = true
    ∧ matchesPattern concreteCollab.regexTest
        (extractErrorMessage (JsVal.vstr "revert boom") none)
        { pattern := "revert boom", message := "M10", priority := some 10 } = true
    ∧ ({ pattern := "revert boom", message := "M10", priority := some 10 } : ErrorMapping).prio <
        ({ pattern := "revert boom", message := "M20", priority := some 20 } : ErrorMapping).prio
    ∧ ({ pattern := "revert boom", message := "M20", priority := some 20 } : ErrorMapping) ∈
        loadErrorMappings sampleTables stPrioIntercept.registry "prio-cfb"
    ∧ (translateError concreteCollab sampleTables (JsVal.vstr "revert boom")
        { chain := some "prio-cfb" } stPrioIntercept).toOption.map (fun p => p.1.message) =
        some "CFBC"
    ∧ ("CFBC" : String) ≠ "M20" ∧ ("CFBC" : String) ≠ "M10" := by
  decide

/-- C5 (amended): `loadErrorMappings` ends with a stable sort by priority
descending (ties keep their relative order — the filtered subsequence at
any fixed priority is unchanged; a missing priority sorts as 0) and the
matcher takes the first match in that order, so when the call is not
intercepted (no applicable custom-chain fallback, effective language
`en`, no per-call custom mappings) and exactly two mappings of the loaded
chain match the message, `translateError` returns the message of the one
with the higher priority, regardless of registration order. -/
theorem translateError_priority_wins :
    (∀ (l : List ErrorMapping) (p : Int),
      (sortDescBy ErrorMapping.prio l).filter (fun m => m.prio == p) =
        l.filter (fun m => m.prio == p))
    ∧ (∀ m : ErrorMapping, m.priority = none → m.prio = 0)
    ∧ ∀ (C : Collab) (tables : CategoryTables) (error : JsVal) (options : Options)
        (st : LibState) (m1 m2 : ErrorMapping),
        error.truthy = true → st.cache = [] →
        earlyCustomFallback st.registry (options.chain.getD "ethereum")
          (extractErrorMessage error options.ecosystem) = none →
        resolveTargetLanguage C st.i18n options error = "en" →
        options.customMappings = [] →
        m1 ∈ loadErrorMappings tables st.registry (options.chain.getD "ethereum") →
        m2 ∈ loadErrorMappings tables st.registry (options.chain.getD "ethereum") →
        matchesPattern C.regexTest (extractErrorMessage error options.ecosystem) m1 = true →
        matchesPattern C.regexTest (extractErrorMessage error options.ecosystem) m2 = true →
        m2.prio < m1.prio →
        (∀ m ∈ loadErrorMappings tables st.registry (options.chain.getD "ethereum"),
          matchesPattern C.regexTest (extractErrorMessage error options.ecosystem) m = true →
          m = m1 ∨ m = m2) →
        ∃ st2, translateError C tables error options st =
          Except.ok ({ message := m1.message, translated := true,
                       originalError := if options.includeOriginalError.getD false
                         then some error else none,
                       chain := options.chain.getD "ethereum", retryable := false,
                       fallbackUsed := false }, st2) := by
  refine ⟨filter_sortDescBy ErrorMapping.prio, ?_, ?_⟩
  · intro m h
    simp [ErrorMapping.prio, h]
  · intro C tables error options st m1 m2 he hcache hearly hlang hnocustom hm1 hm2 hp1
      hp2 hprio honly
    have hmap : mappingsFor tables st.registry options =
        loadErrorMappings tables st.registry (options.chain.getD "ethereum") := by
      unfold mappingsFor
      rw [hnocustom]
      rfl
    have hfind : (loadErrorMappings tables st.registry (options.chain.getD "ethereum")).find?
        (matchesPattern C.regexTest (extractErrorMessage error options.ecosystem)) = some m1 := by
      rcases hfb : (loadErrorMappings tables st.registry (options.chain.getD "ethereum")).find?
          (matchesPattern C.regexTest (extractErrorMessage error options.ecosystem)) with _ | mm
      · exact absurd hp1 (by simpa using List.find?_eq_none.mp hfb m1 hm1)
      · have hmmL := List.mem_of_find?_eq_some hfb
        have hmmp := List.find?_some hfb
        rcases honly mm hmmL hmmp with h1 | h2
        · rw [h1]
        · exfalso
          have hle := find?_sorted_max ErrorMapping.prio _ _ mm
            (sorted_loadErrorMappings tables st.registry _) hfb m1 hm1 hp1
          rw [h2] at hle
          exact absurd hle (not_le.mpr hprio)
    have hmatch : findBestMatch C.regexTest (extractErrorMessage error options.ecosystem)
        (mappingsFor tables st.registry options) = some m1 := by
      unfold findBestMatch
      rw [hmap]
      exact hfind
    have hbody := translateErrorBody_match_en C tables error options st m1 hcache hearly
      hmatch hlang
    refine ⟨(translateErrorBody C tables error options st).2, ?_⟩
    unfold translateError
    rw [if_pos he]
    rw [← hbody]

/-- A custom chain with two mappings for the same pattern, the lower
priority registered first. -/
def prioChainW : CustomChainConfig :=
  { chainId := "prio", name := "Prio",
    errorMappings := [{ pattern := "zz boom", message := "M10W", priority := some 10 },
                      { pattern := "zz boom", message := "M20W", priority := some 20 }] }

/-- A state with `prioChainW` registered. -/
def stPrioW : LibState := { registry := [("prio", prioChainW)], i18n := emptyI18n }

theorem translateError_priority_wins_witness :
    ∃ st2, translateError concreteCollab sampleTables (JsVal.vstr "zz boom")
        { chain := some "prio" } stPrioW =
      Except.ok ({ message := "M20W", translated := true, originalError := none,
                   chain := "prio", retryable := false, fallbackUsed := false }, st2) :=
  translateError_priority_wins.2.2 concreteCollab sampleTables (JsVal.vstr "zz boom")
    { chain := some "prio" } stPrioW
    { pattern := "zz boom", message := "M20W", priority := some 20 }
    { pattern := "zz boom", message := "M10W", priority := some 10 }
    (by decide) rfl (by decide) rfl rfl (by decide) (by decide) (by decide) (by decide)
    (by decide) (by decide)

/-! ### Claim C6 -/

/-- A custom chain carrying only a wallet custom fallback. -/
def walletFbChain : CustomChainConfig :=
  { chainId := "cfbw", name := "Cfbw Chain", errorMappings := [],
    customFallbacks := some { wallet := some "WFB" } }

/-- A state with `walletFbChain` registered. -/
def stCfbw : LibState := { registry := [("cfbw", walletFbChain)], i18n := emptyI18n }

/-- The options of the C6 instance. -/
def cfbwOptions : Options := { chain := some "cfbw" }

theorem translateError_early_custom_fallback_witness :
    matchesPattern concreteCollab.regexTest
      (extractErrorMessage (JsVal.vstr "wallet exploded zz") none)
      { pattern := "wallet exploded zz", message := "MAPPEDW", priority := some 10 } = true
    ∧ translateError concreteCollab sampleTables (JsVal.vstr "wallet exploded zz")
        cfbwOptions stCfbw =
      Except.ok ({ message := "WFB", translated := false,
                   originalError := if cfbwOptions.includeOriginalError.getD false
                     then some (JsVal.vstr "wallet exploded zz") else none,
                   chain := cfbwOptions.chain.getD "ethereum",
                   retryable := false, fallbackUsed := true },
                 { stCfbw with
                     cache := [],
                     i18n := applyCustomLocales stCfbw.i18n cfbwOptions }) :=
  ⟨by decide,
   translateError_early_custom_fallback concreteCollab sampleTables
     (JsVal.vstr "wallet exploded zz") cfbwOptions stCfbw "WFB"
     (by decide) rfl (by decide)⟩

/-! ### Claim C7 -/

/-- The first acceptable candidate in a list of raw lookup results paired
with the validity test their step applies. -/
def firstValid : List (Option String × (String → Bool)) → Option String
  | [] => none
  | (some v, ok) :: rest => if ok v then some v else firstValid rest
  | (none, _) :: rest => firstValid rest

/-- The lookup resolution exactly as claim C7 words it, for comparison
with the source `translate`: the first NON-EMPTY result among the
override exact key, the developer dictionary dot-path, the base
dictionary dot-path; else the literal key. -/
def specTranslateC7 (st : I18nState) (key : String) (language : Option String) : String :=
  let target := st.targetLang language
  (firstValid
    [((st.globalOverrides.lookup target).bind (fun ov => ov.lookup key), fun v => v != ""),
     (st.developerTranslation key target, fun v => v != ""),
     (getNestedValue st.englishTranslations key, fun v => v != "")]).getD key

/-- The amended C7 resolution: the override step skips exactly empty
values; the developer and base steps skip values that TRIM to empty;
resolved entries are parameter-interpolated, the literal key is returned
as is. -/
def amendedTranslateC7 (st : I18nState) (key : String) (language : Option String)
    (params : Option (List (String × String))) : String :=
  let target := st.targetLang language
  match firstValid
    [((st.globalOverrides.lookup target).bind (fun ov => ov.lookup key), fun v => v != ""),
     (st.developerTranslation key target, fun v => jsTrim v != ""),
     (getNestedValue st.englishTranslations key, fun v => jsTrim v != "")] with
  | some v => interpolate v params
  | none => key

/-- A state whose `es` locale holds a whitespace-only value under the key
the base dictionary also defines. -/
def c7State : I18nState :=
  { englishTranslations := [("k", TransVal.str "B")],
    developerLocales := [("es", [("k", TransVal.str " ")])] }

/-- C7 counterexample: the developer value " " is non-empty, so the
claim's resolution returns it, but the source treats values that trim to
empty as not found at the developer step and falls through to the base
dictionary. -/
theorem translate_c7_counterexample :
    I18nState.translate c7State "k" (some "es") none = "B"
    ∧ specTranslateC7 c7State "k" (some "es") = " "
    ∧ ("B" : String) ≠ " " := by
  decide

/-- C7 (amended): for every key, target language, params and i18n state,
`translate` equals the amended resolution: override exact key (skipping
exactly empty values), developer dictionary dot-path and base dictionary
dot-path (each skipping values that trim to empty), else the literal key;
it is total and never throws. -/
theorem translate_resolution_order (st : I18nState) (key : String) (language : Option String)
    (params : Option (List (String × String))) :
    st.translate key language params = amendedTranslateC7 st key language params := by
  unfold I18nState.translate amendedTranslateC7 I18nState.overrideHit I18nState.englishFallback
  rcases ho : st.globalOverrides.lookup (st.targetLang language) with _ | ov
  all_goals rcases hd : st.developerTranslation key (st.targetLang language) with _ | d
  all_goals rcases he : getNestedValue st.englishTranslations key with _ | e
  all_goals try rcases hk : ov.lookup key with _ | v
  all_goals simp only [ho, hd, he, firstValid, Option.bind]
  all_goals try simp only [hk, firstValid]
  all_goals try by_cases hv : v == ""
  all_goals try by_cases ht : jsTrim d == ""
  all_goals try by_cases hte : jsTrim e == ""
  all_goals simp_all [firstValid]

/-! ### Claim C10 -/

/-- C10: supplying `customLocales` in one `translateError` call registers
each supplied locale in the shared i18n manager and adds its language to
the supported set, and the mutation persists: any later call without
`customLocales` leaves the i18n state untouched. -/
theorem translateError_customLocales_persist
    (C : Collab) (tables : CategoryTables) (error : JsVal) (options : Options)
    (st : LibState) (locs : List (String × TranslationObject))
    (he : error.truthy = true) (hcache : st.cache = [])
    (hlocs : options.customLocales = some locs)
    (hdist : locs.Pairwise (fun a b => a.1 ≠ b.1)) :
    ∃ r st2, translateError C tables error options st = Except.ok (r, st2) ∧
      st2.i18n = applyCustomLocales st.i18n options ∧
      (∀ p ∈ locs, st2.i18n.developerLocales.lookup p.1 = some p.2 ∧
        p.1 ∈ st2.i18n.supportedLanguages) ∧
      ∀ (C2 : Collab) (tables2 : CategoryTables) (error2 : JsVal) (options2 : Options)
        (r2 : TResult) (st3 : LibState),
        options2.customLocales = none →
        translateError C2 tables2 error2 options2 st2 = Except.ok (r2, st3) →
        st3.i18n = st2.i18n := by
  refine ⟨(translateErrorBody C tables error options st).1,
    (translateErrorBody C tables error options st).2, ?_, ?_, ?_, ?_⟩
  · unfold translateError
    rw [if_pos he]
  · exact translateErrorBody_i18n_of_cache_nil C tables error options st hcache
  · intro p hp
    obtain ⟨k, v⟩ := p
    rw [translateErrorBody_i18n_of_cache_nil C tables error options st hcache]
    unfold applyCustomLocales
    rw [hlocs]
    exact ⟨lookup_foldl_registerLocale_of_mem locs st.i18n k v hdist hp,
      mem_supported_foldl locs st.i18n k v hp⟩
  · intro C2 tables2 error2 options2 r2 st3 hnone2 hok2
    unfold translateError at hok2
    by_cases ht2 : error2.truthy = true
    · rw [if_pos ht2] at hok2
      have hpair := Except.ok.inj hok2
      have h2 : (translateErrorBody C2 tables2 error2 options2
          (translateErrorBody C tables error options st).2).2 = st3 :=
        congrArg Prod.snd hpair
      rw [← h2]
      exact translateErrorBody_i18n C2 tables2 error2 options2 _ hnone2
    · rw [if_neg ht2] at hok2
      exact absurd hok2 (by simp)

/-- A developer-supplied French locale. -/
def frLocale : TranslationObject :=
  [("errors", TransVal.obj [("network", TransVal.str "Erreur reseau")])]

theorem translateError_customLocales_persist_witness :
    ∃ r st2, translateError concreteCollab sampleTables (JsVal.vstr "out of gas")
        { customLocales := some [("fr", frLocale)] } freshState = Except.ok (r, st2) ∧
      st2.i18n = applyCustomLocales freshState.i18n { customLocales := some [("fr", frLocale)] } ∧
      (∀ p ∈ [("fr", frLocale)], st2.i18n.developerLocales.lookup p.1 = some p.2 ∧
        p.1 ∈ st2.i18n.supportedLanguages) ∧
      ∀ (C2 : Collab) (tables2 : CategoryTables) (error2 : JsVal) (options2 : Options)
        (r2 : TResult) (st3 : LibState),
        options2.customLocales = none →
        translateError C2 tables2 error2 options2 st2 = Except.ok (r2, st3) →
        st3.i18n = st2.i18n :=
  translateError_customLocales_persist concreteCollab sampleTables (JsVal.vstr "out of gas")
    { customLocales := some [("fr", frLocale)] } freshState [("fr", frLocale)]
    (by decide) rfl rfl (by simp)

end Web3
